import Mathlib

set_option maxRecDepth 8000

/-!
# Verification of the chat-controller orchestration core

A shallow embedding, in Lean 4, of the orchestration logic of
`js/chat-controller.js`: tool-call extraction from model replies,
chain-of-thought response classification, the tool-call loop guard,
per-tool argument validation and result normalization, deep reading,
snippet batching for summarization, and the session state machine.

Strings are modeled as `List Char` (`Str`).  JavaScript's `JSON.parse`
is modeled by an executable JSON parser over `Str`; JSON numbers are
modeled as integers (none of the verified properties involve
non-integer numerals, and JS numbers are IEEE-754 doubles, which are
out of scope).  Network and model-reply effects are supplied by an
explicit environment (`Env`); UI calls are recorded as events.
-/

namespace ChatController

/-- Strings as lists of characters. -/
abbrev Str := List Char

/-- Literal helper: a Lean string literal as a `Str`. -/
def lit (s : String) : Str := s.data

/-! ## Basic string helpers (JS `trim`, `includes`, `split`, numerals) -/

/-- The whitespace characters relevant to the modeled inputs
(the ASCII part of the JS `trim` / JSON whitespace set). -/
def isWsChar (c : Char) : Bool :=
  c = ' ' || c = '\t' || c = '\n' || c = '\r'

/-- JS `String.prototype.trim` (ASCII whitespace). -/
def trimL (s : Str) : Str :=
  ((s.dropWhile isWsChar).reverse.dropWhile isWsChar).reverse

/-- Index of the first occurrence of a character, if any. -/
def firstIdxOf (c : Char) : Str → Option Nat
  | [] => none
  | x :: xs => if x = c then some 0 else (firstIdxOf c xs).map (· + 1)

/-- Index of the last occurrence of a character, if any. -/
def lastIdxOf (c : Char) (s : Str) : Option Nat :=
  (firstIdxOf c s.reverse).map (fun i => s.length - 1 - i)

/-- Split a string around the first occurrence of `pat`:
returns `(before, after)` with the occurrence removed. -/
def splitFirstOn (pat : Str) : Str → Option (Str × Str)
  | [] => if pat = [] then some ([], []) else none
  | x :: xs =>
    if pat.isPrefixOf (x :: xs) then some ([], (x :: xs).drop pat.length)
    else (splitFirstOn pat xs).map (fun p => (x :: p.1, p.2))

/-- JS `String.prototype.includes`. -/
def containsSub (pat s : Str) : Bool :=
  (splitFirstOn pat s).isSome

/-- Everything after the first occurrence of `pat` (the whole string if absent). -/
def afterFirst (pat s : Str) : Str :=
  match splitFirstOn pat s with
  | some p => p.2
  | none => s

/-- JS `String.prototype.split(sep)` for a single-character separator. -/
def splitOnCharL (sep : Char) : Str → List Str
  | [] => [[]]
  | c :: cs =>
    let rest := splitOnCharL sep cs
    if c = sep then [] :: rest
    else
      match rest with
      | [] => [[c]]
      | r :: rs => (c :: r) :: rs

/-- `Array.prototype.join(sep)` for string lists, single-character separator. -/
def joinSep (sep : Char) : List Str → Str
  | [] => []
  | [s] => s
  | s :: rest => s ++ sep :: joinSep sep rest

/-- Decimal digit character of `n % 10`. -/
def digitChar10 (n : Nat) : Char := Char.ofNat (48 + n % 10)

/-- Decimal numeral of a natural number (fuel-based helper). -/
def natToStrAux : Nat → Nat → Str
  | 0, _ => []
  | fuel + 1, n =>
    if n < 10 then [digitChar10 n]
    else natToStrAux fuel (n / 10) ++ [digitChar10 (n % 10)]

/-- Decimal numeral of a natural number (JS number-to-string on naturals). -/
def natToStr (n : Nat) : Str := natToStrAux (n + 1) n

/-- JS `String.prototype.toLowerCase` (ASCII letters). -/
def toLowerStr (s : Str) : Str := s.map Char.toLower

/-! ## JSON values and `JSON.parse`

Numbers are modeled as integers (see the file header). Object fields
keep their textual order; duplicate keys are resolved by last-wins
lookup, matching the JS semantics of `JSON.parse`. -/

mutual

/-- JSON values. -/
inductive Json where
  | null
  | bool (b : Bool)
  | num (n : Int)
  | str (s : Str)
  | arr (elems : JsonList)
  | obj (fields : JsonFields)
  deriving DecidableEq

/-- A list of JSON values (array elements). -/
inductive JsonList where
  | nil
  | cons (hd : Json) (tl : JsonList)
  deriving DecidableEq

/-- An ordered list of JSON object fields. -/
inductive JsonFields where
  | nil
  | cons (key : Str) (val : Json) (tl : JsonFields)
  deriving DecidableEq

end

/-- Last-wins lookup in an object's field list (duplicate keys in the
source text are overwritten in order by `JSON.parse`). -/
def JsonFields.lookupLast (k : Str) : JsonFields → Option Json
  | .nil => none
  | .cons k' v tl =>
    match lookupLast k tl with
    | some r => some r
    | none => if k' = k then some v else none

/-- Property access `j[k]` on a parsed JSON value: object field lookup;
on every non-object, `undefined` (here `none`). -/
def jget (j : Json) (k : Str) : Option Json :=
  match j with
  | .obj fields => fields.lookupLast k
  | _ => none

/-- JS truthiness of a JSON value (a missing property, `none` at use
sites, is falsy). -/
def truthy : Json → Bool
  | .null => false
  | .bool b => b
  | .num n => n ≠ 0
  | .str s => s ≠ []
  | .arr _ => true
  | .obj _ => true

/-- JSON whitespace skipping. -/
def skipWs (s : Str) : Str := s.dropWhile isWsChar

/-- Value of a hexadecimal digit. -/
def hexVal (c : Char) : Option Nat :=
  if '0' ≤ c ∧ c ≤ '9' then some (c.toNat - 48)
  else if 'a' ≤ c ∧ c ≤ 'f' then some (c.toNat - 97 + 10)
  else if 'A' ≤ c ∧ c ≤ 'F' then some (c.toNat - 65 + 10)
  else none

/-- Four hex digits (the `\uXXXX` escape payload). -/
def parseHex4 : Str → Option (Nat × Str)
  | a :: b :: c :: d :: rest => do
    let va ← hexVal a
    let vb ← hexVal b
    let vc ← hexVal c
    let vd ← hexVal d
    some (((va * 16 + vb) * 16 + vc) * 16 + vd, rest)
  | _ => none

/-- Is `c` a decimal digit? -/
def isDigitCh (c : Char) : Bool := '0' ≤ c ∧ c ≤ '9'

/-- Parse one or more decimal digits into a natural number. -/
def parseDigits : Str → Option (Nat × Str)
  | s =>
    let ds := s.takeWhile isDigitCh
    if ds = [] then none
    else some (ds.foldl (fun acc c => acc * 10 + (c.toNat - 48)) 0, s.drop ds.length)

/-- Body of a JSON string literal (after the opening quote), with the
standard escapes.  Raw control characters are rejected, as in JSON. -/
def parseStrBody : Nat → Str → Option (Str × Str)
  | 0, _ => none
  | fuel + 1, s =>
    match s with
    | [] => none
    | '"' :: rest => some ([], rest)
    | '\\' :: e :: rest =>
      match e with
      | '"' => (parseStrBody fuel rest).map (fun p => ('"' :: p.1, p.2))
      | '\\' => (parseStrBody fuel rest).map (fun p => ('\\' :: p.1, p.2))
      | '/' => (parseStrBody fuel rest).map (fun p => ('/' :: p.1, p.2))
      | 'b' => (parseStrBody fuel rest).map (fun p => (Char.ofNat 8 :: p.1, p.2))
      | 'f' => (parseStrBody fuel rest).map (fun p => (Char.ofNat 12 :: p.1, p.2))
      | 'n' => (parseStrBody fuel rest).map (fun p => ('\n' :: p.1, p.2))
      | 'r' => (parseStrBody fuel rest).map (fun p => ('\r' :: p.1, p.2))
      | 't' => (parseStrBody fuel rest).map (fun p => ('\t' :: p.1, p.2))
      | 'u' =>
        match parseHex4 rest with
        | some (n, rest') => (parseStrBody fuel rest').map (fun p => (Char.ofNat n :: p.1, p.2))
        | none => none
      | _ => none
    | c :: rest =>
      if c.toNat < 32 then none
      else (parseStrBody fuel rest).map (fun p => (c :: p.1, p.2))

/-- JSON number (integer subset: optional minus, `0` or a nonzero-led
digit run; fraction/exponent forms are not modeled, see file header). -/
def parseNumber (s : Str) : Option (Int × Str) :=
  match s with
  | '-' :: rest => (parseNumAbs rest).map (fun p => (-(p.1 : Int), p.2))
  | _ => (parseNumAbs s).map (fun p => ((p.1 : Int), p.2))
where
  parseNumAbs : Str → Option (Nat × Str)
    | '0' :: rest => some (0, rest)
    | s => match parseDigits s with
      | some (n, rest) => some (n, rest)
      | none => none

mutual

/-- Parse a JSON value; fuel bounds the nesting recursion. -/
def parseValue : Nat → Str → Option (Json × Str)
  | 0, _ => none
  | fuel + 1, s0 =>
    match skipWs s0 with
    | [] => none
    | '\x7b' :: rest =>
      match skipWs rest with
      | '\x7d' :: rest' => some (.obj .nil, rest')
      | s' => (parseMembers fuel s').map (fun p => (.obj p.1, p.2))
    | '[' :: rest =>
      match skipWs rest with
      | ']' :: rest' => some (.arr .nil, rest')
      | s' => (parseElems fuel s').map (fun p => (.arr p.1, p.2))
    | '"' :: rest => (parseStrBody (rest.length + 1) rest).map (fun p => (.str p.1, p.2))
    | 't' :: rest =>
      if (lit "rue").isPrefixOf rest then some (.bool true, rest.drop 3) else none
    | 'f' :: rest =>
      if (lit "alse").isPrefixOf rest then some (.bool false, rest.drop 4) else none
    | 'n' :: rest =>
      if (lit "ull").isPrefixOf rest then some (.null, rest.drop 3) else none
    | s => (parseNumber s).map (fun p => (.num p.1, p.2))

/-- Parse object members (`"k" : v`, comma-separated, then the closing
brace; at least one member). -/
def parseMembers : Nat → Str → Option (JsonFields × Str)
  | 0, _ => none
  | fuel + 1, s =>
    match s with
    | '"' :: rest =>
      match parseStrBody (rest.length + 1) rest with
      | none => none
      | some (key, rest1) =>
        match skipWs rest1 with
        | ':' :: rest2 =>
          match parseValue fuel rest2 with
          | none => none
          | some (v, rest3) =>
            match skipWs rest3 with
            | ',' :: rest4 =>
              (parseMembers fuel (skipWs rest4)).map
                (fun p => (JsonFields.cons key v p.1, p.2))
            | '\x7d' :: rest4 => some (JsonFields.cons key v .nil, rest4)
            | _ => none
        | _ => none
    | _ => none

/-- Parse array elements (comma-separated values then the closing
bracket; at least one element). -/
def parseElems : Nat → Str → Option (JsonList × Str)
  | 0, _ => none
  | fuel + 1, s =>
    match parseValue fuel s with
    | none => none
    | some (v, rest) =>
      match skipWs rest with
      | ',' :: rest' => (parseElems fuel rest').map (fun p => (JsonList.cons v p.1, p.2))
      | ']' :: rest' => some (JsonList.cons v .nil, rest')
      | _ => none

end

/-- `JSON.parse`: a complete value with only trailing whitespace. -/
def parseJsonTop (s : Str) : Option Json :=
  match parseValue (s.length + 1) s with
  | some (j, rest) => if skipWs rest = [] then some j else none
  | none => none

/-! ## Tool-call extraction (`extractToolCall`, lines 28-37)

`text.match(/\x7b[\s\S]*\x7d/)` matches from the first `\x7b` in the
text to the last `\x7d`, provided some `\x7d` occurs after the first
`\x7b`; the matched span is then fed to `JSON.parse`, and a parse
failure is swallowed (`null`, here `none`). -/

/-- The span matched by the greedy brace regex, if any. -/
def braceSpan (s : Str) : Option Str :=
  match firstIdxOf '\x7b' s, lastIdxOf '\x7d' s with
  | some i, some j => if i < j then some ((s.drop i).take (j - i + 1)) else none
  | _, _ => none

/-- `extractToolCall` (source lines 28-37): greedy brace span, then
`JSON.parse`; `null` (here `none`) when there is no span or the span
does not parse. -/
def extractToolCall (text : Str) : Option Json :=
  (braceSpan text).bind parseJsonTop

/-- The registered tool names (keys of `toolHandlers`, lines 52-131). -/
inductive ToolName where
  | web_search
  | read_url
  | instant_answer
  deriving DecidableEq

/-- Registered handler lookup by name (the keys of `toolHandlers`). -/
def toolNameOfStr (s : Str) : Option ToolName :=
  if s = lit "web_search" then some .web_search
  else if s = lit "read_url" then some .read_url
  else if s = lit "instant_answer" then some .instant_answer
  else none

/-- A dispatched tool call: `\x7b tool, arguments, skipContinue \x7d`
as destructured by `processToolCall` (line 651). -/
structure Call where
  tool : ToolName
  args : Json
  skipContinue : Bool := false
  deriving DecidableEq

/-- A parsed JSON value interpreted as a well-formed tool call in the
sense of the spec: a recognized `tool` name and an `arguments` object. -/
def asToolCall (j : Json) : Option (ToolName × Json) :=
  match jget j (lit "tool"), jget j (lit "arguments") with
  | some (.str name), some (.obj fs) => (toolNameOfStr name).map (fun t => (t, .obj fs))
  | _, _ => none

/-- Parse a string as a well-formed tool-call JSON object. -/
def parseToolCall (s : Str) : Option (ToolName × Json) :=
  (parseJsonTop s).bind asToolCall

/-- The guard `toolCall && toolCall.tool && toolCall.arguments` used at
every dispatch site (lines 426, 484, 561, 620): truthiness of the two
properties. -/
def dispatchGuard (j : Json) : Bool :=
  (match jget j (lit "tool") with | some v => truthy v | none => false) &&
  (match jget j (lit "arguments") with | some v => truthy v | none => false)

/-! ## Chain-of-thought response classification (lines 208-299)

`processCoTResponse` reads and writes the module-level
`lastThinkingContent` / `lastAnswerContent` variables; they are modeled
as an explicit state record.  The JS regexes:

* `/Thinking:(.*?)(?=Answer:|$)/s` matches iff the text contains
  `Thinking:`; the capture runs from after the first `Thinking:` up to
  the first later `Answer:` (or the end);
* `/Answer:(.*?)$/s` matches iff the text contains `Answer:`; the
  capture is everything after the first `Answer:`. -/

/-- Module-level classifier state (source lines 14-15). -/
structure CoTState where
  lastThinkingContent : Str
  lastAnswerContent : Str
  deriving DecidableEq

/-- The classification result object.  Source result objects omit
`partial` and `stage` in some branches; absent fields are modeled as
`false` / `none` (`inProgress` models the source's `partial` flag). -/
structure CoTResult where
  thinking : Str
  answer : Str
  hasStructuredResponse : Bool
  inProgress : Bool
  stage : Option Str
  deriving DecidableEq

/-- Capture of `/Thinking:(.*?)(?=Answer:|$)/s`, if the marker occurs. -/
def cotThinkingCapture (s : Str) : Option Str :=
  match splitFirstOn (lit "Thinking:") s with
  | some p =>
    some (match splitFirstOn (lit "Answer:") p.2 with
      | some q => q.1
      | none => p.2)
  | none => none

/-- Capture of `/Answer:(.*?)$/s`, if the marker occurs. -/
def cotAnswerCapture (s : Str) : Option Str :=
  (splitFirstOn (lit "Answer:") s).map (·.2)

/-- `processCoTResponse` (source lines 208-258): final-text CoT
classification, returning the result and the updated module state. -/
def processCoTResponse (st : CoTState) (response : Str) : CoTResult × CoTState :=
  let thinkingMatch := cotThinkingCapture response
  let answerMatch := cotAnswerCapture response
  match thinkingMatch, answerMatch with
  | some tm, some am =>
    let thinking := trimL tm
    let answer := trimL am
    (⟨thinking, answer, true, false, none⟩, ⟨thinking, answer⟩)
  | _, _ =>
    if (lit "Thinking:").isPrefixOf response &&
        !(containsSub (lit "Answer:") response) then
      -- partial thinking: carry the previously stored answer over
      let thinking := trimL (response.drop (lit "Thinking:").length)
      (⟨thinking, st.lastAnswerContent, true, true, some (lit "thinking")⟩,
       ⟨thinking, st.lastAnswerContent⟩)
    else if containsSub (lit "Thinking:") response && thinkingMatch.isNone then
      -- malformed branch of the source (lines 240-249); unreachable,
      -- since the Thinking regex matches whenever the marker occurs
      (⟨trimL (afterFirst (lit "Thinking:") response), [], false, true, none⟩, st)
    else
      (⟨[], response, false, false, none⟩, st)

/-- `processPartialCoTResponse` (source lines 265-299): streaming-
partial CoT classification; reads no module state and returns
`answer: ''` in the thinking stage. -/
def processPartialCoTResponse (fullText : Str) : CoTResult :=
  if containsSub (lit "Thinking:") fullText &&
      !(containsSub (lit "Answer:") fullText) then
    ⟨trimL (afterFirst (lit "Thinking:") fullText), [], true, true, some (lit "thinking")⟩
  else if containsSub (lit "Thinking:") fullText &&
      containsSub (lit "Answer:") fullText then
    match cotThinkingCapture fullText, cotAnswerCapture fullText with
    | some tm, some am => ⟨trimL tm, trimL am, true, false, none⟩
    | _, _ => ⟨[], fullText, false, false, none⟩
  else
    ⟨[], fullText, false, false, none⟩

/-! ## JSON.stringify with two-space indentation (for `instant_answer`) -/

/-- Hexadecimal digit character (lowercase). -/
def digitChar16 (n : Nat) : Char :=
  if n < 10 then Char.ofNat (48 + n) else Char.ofNat (97 + (n - 10))

/-- Decimal numeral of an integer. -/
def intToStr (n : Int) : Str :=
  if n < 0 then '-' :: natToStr n.natAbs else natToStr n.toNat

/-- One character of a JSON string literal, escaped as `JSON.stringify`
escapes it. -/
def escapeJsonChar (c : Char) : Str :=
  if c = '"' then ['\\', '"']
  else if c = '\\' then ['\\', '\\']
  else if c = '\n' then ['\\', 'n']
  else if c = '\r' then ['\\', 'r']
  else if c = '\t' then ['\\', 't']
  else if c.toNat = 8 then ['\\', 'b']
  else if c.toNat = 12 then ['\\', 'f']
  else if c.toNat < 32 then
    ['\\', 'u', '0', '0', digitChar16 (c.toNat / 16), digitChar16 (c.toNat % 16)]
  else [c]

/-- A JSON string literal. -/
def jsonQuote (s : Str) : Str :=
  '"' :: ((s.map escapeJsonChar).flatten ++ ['"'])

/-- `n` spaces. -/
def indentStr (n : Nat) : Str := List.replicate n ' '

mutual

/-- `JSON.stringify(v, null, 2)` rendered at indentation depth `ind`;
fuel bounds the nesting recursion (`sizeOf` the value always suffices). -/
def stringifyV : Nat → Nat → Json → Str
  | 0, _, _ => []
  | _ + 1, _, .null => lit "null"
  | _ + 1, _, .bool true => lit "true"
  | _ + 1, _, .bool false => lit "false"
  | _ + 1, _, .num n => intToStr n
  | _ + 1, _, .str s => jsonQuote s
  | _ + 1, _, .arr .nil => lit "[]"
  | fuel + 1, ind, .arr (.cons h t) =>
    lit "[\n" ++ stringifyElems fuel (ind + 2) h t ++ '\n' :: (indentStr ind ++ lit "]")
  | _ + 1, _, .obj .nil => lit "\x7b\x7d"
  | fuel + 1, ind, .obj (.cons k v t) =>
    lit "\x7b\n" ++ stringifyFields fuel (ind + 2) k v t ++
      '\n' :: (indentStr ind ++ lit "\x7d")

/-- Array elements, one per line, comma-separated. -/
def stringifyElems : Nat → Nat → Json → JsonList → Str
  | 0, _, _, _ => []
  | fuel + 1, ind, h, .nil => indentStr ind ++ stringifyV fuel ind h
  | fuel + 1, ind, h, .cons h' t' =>
    indentStr ind ++ stringifyV fuel ind h ++ lit ",\n" ++ stringifyElems fuel ind h' t'

/-- Object fields, one per line, comma-separated. -/
def stringifyFields : Nat → Nat → Str → Json → JsonFields → Str
  | 0, _, _, _, _ => []
  | fuel + 1, ind, k, v, .nil => indentStr ind ++ jsonQuote k ++ lit ": " ++ stringifyV fuel ind v
  | fuel + 1, ind, k, v, .cons k' v' t' =>
    indentStr ind ++ jsonQuote k ++ lit ": " ++ stringifyV fuel ind v ++ lit ",\n" ++
      stringifyFields fuel ind k' v' t'

end

mutual

/-- Structural size of a JSON value (adequate stringify fuel). -/
def jsonSize : Json → Nat
  | .null => 1
  | .bool _ => 1
  | .num _ => 1
  | .str _ => 1
  | .arr l => 1 + jsonListSize l
  | .obj f => 1 + jsonFieldsSize f

/-- Structural size of a JSON array's elements. -/
def jsonListSize : JsonList → Nat
  | .nil => 1
  | .cons h t => 1 + jsonSize h + jsonListSize t

/-- Structural size of a JSON object's fields. -/
def jsonFieldsSize : JsonFields → Nat
  | .nil => 1
  | .cons _ v t => 1 + jsonSize v + jsonFieldsSize t

end

/-- `JSON.stringify(result, null, 2)` (used by `instant_answer`, line 121). -/
def jsonStringify2 (j : Json) : Str := stringifyV (jsonSize j + 1) 0 j

/-! ## Orchestrator state, environment and events

The module-level variables of the controller (source lines 10-25) form
the state record.  Network and model-judgment results are supplied by
an `Env`; calls into the UI layer and into `ToolsService` are recorded
as an event list.  Tool-call audit entries carry a wall-clock timestamp
in the source; the timestamp is an environment clock value with no
bearing on any property here, so an audit entry is modeled as its
`(tool, args)` pair. -/

/-- Roles of conversation turns. -/
inductive Role where
  | system
  | user
  | assistant
  deriving DecidableEq

/-- One conversation turn. -/
structure Turn where
  role : Role
  content : Str
  deriving DecidableEq

/-- The `settings` record (line 12). -/
structure Settings where
  streaming : Bool
  enableCoT : Bool
  showThinking : Bool
  deriving DecidableEq

/-- A web-search result as consumed by the controller. -/
structure SearchResult where
  title : Str
  url : Str
  snippet : Str
  deriving DecidableEq

/-- Observable effects: UI calls and outgoing `ToolsService` calls.
Spinner/status calls are pure UI progress indication (out of the
spec's scope) and are not recorded. -/
inductive Event where
  | addMessage (text : Str)
  | addSearchResult (r : SearchResult) (highlighted : Bool)
  | addReadResult (url snippet : Str) (hasMore : Bool)
  | addSummarizeButton
  | toolInvoked (t : ToolName) (arg : Str)
  deriving DecidableEq

/-- The external collaborators: tool transports and the model-judgment
call of the deep reader.  `deepReadJudge` is the model's reply to the
more-content question for a given snippet; when `modelIsGpt` is false
the source never issues that call and the reply stays empty. -/
structure Env where
  webSearch : Str → Except Str (List SearchResult)
  readUrl : Str → Except Str Str
  instantAnswer : Str → Except Str Json
  modelIsGpt : Bool
  deepReadJudge : Str → Except Str Str

/-- The controller's private state (source lines 10-25). -/
structure AgentState where
  chatHistory : List Turn
  totalTokens : Nat
  settings : Settings
  isThinking : Bool
  lastThinkingContent : Str
  lastAnswerContent : Str
  readSnippets : List Str
  lastToolCall : Option (ToolName × Json)
  lastToolCallCount : Nat
  lastSearchResults : List SearchResult
  autoReadInProgress : Bool
  toolCallHistory : List (ToolName × Json)
  highlightedResultIndices : List Nat
  readCache : List (Str × Str)
  deriving DecidableEq

/-- The initial values of the module variables (lines 10-25). -/
def initialModuleState : AgentState where
  chatHistory := []
  totalTokens := 0
  settings := ⟨false, false, true⟩
  isThinking := false
  lastThinkingContent := []
  lastAnswerContent := []
  readSnippets := []
  lastToolCall := none
  lastToolCallCount := 0
  lastSearchResults := []
  autoReadInProgress := false
  toolCallHistory := []
  highlightedResultIndices := []
  readCache := []

/-- Append an assistant turn to the conversation log
(`chatHistory.push(\x7b role: 'assistant', ... \x7d)`). -/
def pushAssistant (st : AgentState) (content : Str) : AgentState :=
  { st with chatHistory := st.chatHistory ++ [⟨.assistant, content⟩] }

/-- Append a user turn to the conversation log. -/
def pushUser (st : AgentState) (content : Str) : AgentState :=
  { st with chatHistory := st.chatHistory ++ [⟨.user, content⟩] }

/-! ## Tool handlers (`toolHandlers`, lines 52-131)

Each handler validates its arguments, invokes the transport, and
normalizes the result into one assistant turn.  The autonomous
suggestion cascade that the `web_search` handler awaits afterwards
(`suggestResultsToRead`, lines 78 and 792-814) issues further model
calls and re-enters `processToolCall` through the deep reader; it is
modeled separately (`deepReadUrl` below), each re-entry being its own
`processToolCall` invocation. -/

/-- Argument validation, exactly the checks at lines 54, 87 and 114:
`query` must be a string with non-empty trim; `url` must be a string
matching `^https?:\/\/`. -/
def argsValid : ToolName → Json → Bool
  | .web_search, args =>
    match jget args (lit "query") with
    | some (.str q) => trimL q ≠ []
    | _ => false
  | .instant_answer, args =>
    match jget args (lit "query") with
    | some (.str q) => trimL q ≠ []
    | _ => false
  | .read_url, args =>
    match jget args (lit "url") with
    | some (.str u) => (lit "http://").isPrefixOf u || (lit "https://").isPrefixOf u
    | _ => false

/-- The `web_search` handler (lines 53-85), up to the suggestion
cascade (see the section comment). -/
def webSearchHandler (env : Env) (st : AgentState) (args : Json) :
    AgentState × List Event :=
  match jget args (lit "query") with
  | some (.str q) =>
    if trimL q = [] then (st, [.addMessage (lit "Error: Invalid web_search query.")])
    else
      match env.webSearch q with
      | .ok results =>
        let resultEvents := (results.enum.map
          (fun p => Event.addSearchResult p.2 (st.highlightedResultIndices.contains p.1)))
        let emptyMsg :=
          if results.length = 0 then
            [Event.addMessage (lit "No search results found for \"" ++ q ++ lit "\".")]
          else []
        let plainTextResults := joinSep '\n' (results.enum.map
          (fun p => natToStr (p.1 + 1) ++ lit ". " ++ p.2.title ++ lit " (" ++
            p.2.url ++ lit ") - " ++ p.2.snippet))
        let turn := lit "Search results for \"" ++ q ++ lit "\" (" ++
          natToStr results.length ++ lit "):\n" ++ plainTextResults
        ({ pushAssistant st turn with lastSearchResults := results },
         .toolInvoked .web_search q :: resultEvents ++ emptyMsg)
      | .error e =>
        (pushAssistant st (lit "Web search failed: " ++ e),
         [.toolInvoked .web_search q, .addMessage (lit "Web search failed: " ++ e)])
  | _ => (st, [.addMessage (lit "Error: Invalid web_search query.")])

/-- The `read_url` handler (lines 86-112). -/
def readUrlHandler (env : Env) (st : AgentState) (args : Json) :
    AgentState × List Event :=
  match jget args (lit "url") with
  | some (.str url) =>
    if (lit "http://").isPrefixOf url || (lit "https://").isPrefixOf url then
      match env.readUrl url with
      | .ok content =>
        let start :=
          match jget args (lit "start") with
          | some (.num i) => if 0 ≤ i then i.toNat else 0
          | _ => 0
        let len :=
          match jget args (lit "length") with
          | some (.num i) => if 0 < i then i.toNat else 1122
          | _ => 1122
        let snippet := (content.drop start).take len
        let hasMore := decide (start + len < content.length)
        let turn := lit "Read content from " ++ url ++ lit ":\n" ++ snippet ++
          (if hasMore then lit "..." else [])
        let newSnippets := st.readSnippets ++ [snippet]
        let st' := { pushAssistant st turn with readSnippets := newSnippets }
        (st', [.toolInvoked .read_url url, .addReadResult url snippet hasMore] ++
          (if 2 ≤ newSnippets.length then [Event.addSummarizeButton] else []))
      | .error e =>
        (pushAssistant st (lit "Read URL failed: " ++ e),
         [.toolInvoked .read_url url, .addMessage (lit "Read URL failed: " ++ e)])
    else (st, [.addMessage (lit "Error: Invalid read_url argument.")])
  | _ => (st, [.addMessage (lit "Error: Invalid read_url argument.")])

/-- The `instant_answer` handler (lines 113-130). -/
def instantAnswerHandler (env : Env) (st : AgentState) (args : Json) :
    AgentState × List Event :=
  match jget args (lit "query") with
  | some (.str q) =>
    if trimL q = [] then (st, [.addMessage (lit "Error: Invalid instant_answer query.")])
    else
      match env.instantAnswer q with
      | .ok result =>
        let text := jsonStringify2 result
        (pushAssistant st text,
         [.toolInvoked .instant_answer q, .addMessage text])
      | .error e =>
        (pushAssistant st (lit "Instant answer failed: " ++ e),
         [.toolInvoked .instant_answer q, .addMessage (lit "Instant answer failed: " ++ e)])
  | _ => (st, [.addMessage (lit "Error: Invalid instant_answer query.")])

/-- Handler registry dispatch (`toolHandlers[tool](args)`, line 666). -/
def runHandler : ToolName → Env → AgentState → Json → AgentState × List Event
  | .web_search => webSearchHandler
  | .read_url => readUrlHandler
  | .instant_answer => instantAnswerHandler

/-! ## `processToolCall` (lines 649-690) -/

/-- The loop-guard threshold `MAX_TOOL_CALL_REPEAT` (line 19). -/
def MAX_TOOL_CALL_REPEAT : Nat := 3

/-- The loop-detected error message (line 661). -/
def loopErrorText : Str :=
  lit "Error: Tool call loop detected. The same tool call has been made more than " ++
  natToStr MAX_TOOL_CALL_REPEAT ++
  lit " times in a row. Stopping to prevent infinite loop."

/-- The loop-guard signature `JSON.stringify(\x7b tool, args \x7d)`
(line 653).  `JSON.stringify` is a deterministic serialization, so two
signatures are equal exactly when the `(tool, args)` pairs are equal;
the signature is modeled as the pair itself. -/
def callSig (c : Call) : ToolName × Json := (c.tool, c.args)

/-- The outcome of one `processToolCall` invocation. -/
structure StepResult where
  state : AgentState
  events : List Event
  handlerRan : Bool
  loopAborted : Bool

/-- The updated repeat counter (lines 654-659): increment on an exact
repeat of the previous signature, else reset to 1. -/
def nextCount (st : AgentState) (c : Call) : Nat :=
  if st.lastToolCall = some (callSig c) then st.lastToolCallCount + 1 else 1

/-- `processToolCall` (lines 649-690): loop-guard update and check,
audit logging, then handler dispatch.  The final continue-reasoning
step (lines 667-689) resubmits the conversation to the model and is
driven by model replies; its decision predicate is
`lastEntryIsToolCall` below, and the resubmission itself belongs to the
message-handling flow, each further tool call being its own
`processToolCall` invocation. -/
def processToolCall (env : Env) (st : AgentState) (c : Call) : StepResult :=
  let sig := callSig c
  let cnt := nextCount st c
  let st1 := { st with lastToolCall := some sig, lastToolCallCount := cnt }
  if MAX_TOOL_CALL_REPEAT < cnt then
    { state := st1, events := [.addMessage loopErrorText],
      handlerRan := false, loopAborted := true }
  else
    let st2 := { st1 with toolCallHistory := st1.toolCallHistory ++ [(c.tool, c.args)] }
    let r := runHandler c.tool env st2 c.args
    { state := r.1, events := r.2, handlerRan := true, loopAborted := false }

/-- The continuation check (lines 668-678): is the most recent history
entry itself a parseable tool-call JSON with truthy `tool` and
`arguments`?  If so the source refuses to resubmit and warns instead. -/
def lastEntryIsToolCall (st : AgentState) : Bool :=
  match st.chatHistory.getLast? with
  | some t =>
    match parseJsonTop t.content with
    | some j => dispatchGuard j
    | none => false
  | none => false

/-! ## Session lifecycle: `init` (lines 137-164) and `clearChat` (lines 178-182) -/

/-- The system turn's tool-contract text (lines 141-156). -/
def systemPromptText : Str := lit "You are an AI assistant with access to three tools for external information and you may call them multiple times to retrieve additional data:\n1. web_search(query) → returns a JSON array of search results [\x7btitle, url, snippet\x7d, …]\n2. read_url(url[, start, length]) → returns the text content of a web page from position 'start' (default 0) up to 'length' characters (default 1122)\n3. instant_answer(query) → returns a JSON object from DuckDuckGo's Instant Answer API for quick facts, definitions, and summaries (no proxies needed)\n\nFor any question requiring up-to-date facts, statistics, or detailed content, choose the appropriate tool above. Use read_url to fetch initial snippets (default 1122 chars), then evaluate each snippet for relevance.\nIf a snippet ends with an ellipsis (\"...\"), always determine whether fetching more text will improve your answer. If it will, output a new read_url tool call JSON with the same url, start at your previous offset, and length set to 5000 to retrieve the next segment. Repeat this process—issuing successive read_url calls—until the snippet no longer ends with \"...\" or you judge that additional content is not valuable. Only then continue reasoning toward your final answer.\n\nWhen calling a tool, output EXACTLY a JSON object and nothing else, in this format:\n\x7b\"tool\":\"web_search\",\"arguments\":\x7b\"query\":\"your query\"\x7d\x7d\n\x7b\"tool\":\"read_url\",\"arguments\":\x7b\"url\":\"https://example.com\",\"start\":0,\"length\":1122\x7d\x7d\nor\n\x7b\"tool\":\"instant_answer\",\"arguments\":\x7b\"query\":\"your query\"\x7d\x7d\n\nWait for the tool result to be provided before continuing your explanation or final answer.\nAfter receiving the tool result, continue thinking step-by-step and then provide your answer."

/-- The single system turn seeded by `init` (lines 139-157). -/
def systemTurn : Turn := ⟨.system, systemPromptText⟩

/-- A partial settings object, spread over the current settings. -/
structure SettingsPatch where
  streaming : Option Bool := none
  enableCoT : Option Bool := none
  showThinking : Option Bool := none

/-- `\x7b ...settings, ...newSettings \x7d`. -/
def applySettingsPatch (s : Settings) (p : SettingsPatch) : Settings :=
  ⟨p.streaming.getD s.streaming, p.enableCoT.getD s.enableCoT,
   p.showThinking.getD s.showThinking⟩

/-- `init` (lines 137-164): reseed the history with the system turn
and overlay the initial settings when provided. -/
def initChat (st : AgentState) (p : Option SettingsPatch) : AgentState :=
  let st' := { st with chatHistory := [systemTurn] }
  match p with
  | some patch => { st' with settings := applySettingsPatch st'.settings patch }
  | none => st'

/-- `clearChat` (lines 178-182): empty the history and zero the token
counter; every other module variable is untouched. -/
def clearChat (st : AgentState) : AgentState :=
  { st with chatHistory := [], totalTokens := 0 }

/-! ## Deep reading (`deepReadUrl`, lines 709-761) -/

/-- First-match lookup in the read cache (JS `Map.get`). -/
def cacheGet : List (Str × Str) → Str → Option Str
  | [], _ => none
  | (k', v') :: rest, k => if k' = k then some v' else cacheGet rest k

/-- JS `Map.set`: overwrite the existing binding or append a new one. -/
def cacheSet : List (Str × Str) → Str → Str → List (Str × Str)
  | [], k, v => [(k, v)]
  | (k', v') :: rest, k, v =>
    if k' = k then (k, v) :: rest else (k', v') :: cacheSet rest k v

/-- The `read_url` arguments object a deep-read iteration sends
(line 722): `\x7b url, start, length: chunkSize \x7d`. -/
def readArgsJson (url : Str) (start chunkSize : Nat) : Json :=
  .obj (.cons (lit "url") (.str url)
    (.cons (lit "start") (.num (start : Int))
      (.cons (lit "length") (.num (chunkSize : Int)) .nil)))

/-- The values of the deep-read loop variables when the loop exits. -/
structure DeepReadOut where
  chunks : List Str
  chunkCount : Nat
  totalLength : Nat
  shouldContinue : Bool
  state : AgentState

/-- The while-loop of `deepReadUrl` (lines 715-759), fuel-indexed.
Every iteration that recurses with `shouldContinue = true` increments
`chunkCount`, which the loop guard bounds by `maxChunks`, and an
iteration entered with `shouldContinue = false` returns at once, so a
fuel of `maxChunks + 2` dominates the source's while loop. -/
def deepReadLoop (env : Env) (url : Str) (maxChunks chunkSize maxTotalLength : Nat) :
    Nat → AgentState → Nat → Nat → Nat → Bool → List Str → DeepReadOut
  | 0, st, _, cnt, tot, sc, acc => ⟨acc, cnt, tot, sc, st⟩
  | fuel + 1, st, start, cnt, tot, sc, acc =>
    if sc && decide (cnt < maxChunks) && decide (tot < maxTotalLength) then
      let cacheKey := url ++ ':' :: natToStr start ++ ':' :: natToStr chunkSize
      let fetched : Str × AgentState :=
        match cacheGet st.readCache cacheKey with
        | some snip => (snip, st)
        | none =>
          let r := processToolCall env st
            ⟨.read_url, readArgsJson url start chunkSize, true⟩
          match r.state.chatHistory.getLast? with
          | some t =>
            if (lit "Read content from").isPrefixOf t.content then
              let snip := joinSep '\n' ((splitOnCharL '\n' t.content).drop 1)
              (snip, { r.state with readCache := cacheSet r.state.readCache cacheKey snip })
            else ([], r.state)
          | none => ([], r.state)
      let snippet := fetched.1
      let st' := fetched.2
      if snippet = [] then ⟨acc, cnt, tot, sc, st'⟩
      else
        let acc' := acc ++ [snippet]
        let tot' := tot + snippet.length
        match (if env.modelIsGpt then env.deepReadJudge snippet else .ok []) with
        | .error _ => ⟨acc', cnt, tot', false, st'⟩
        | .ok reply =>
          let aiReply := toLowerStr (trimL reply)
          if (lit "yes").isPrefixOf aiReply && decide (tot' < maxTotalLength) then
            deepReadLoop env url maxChunks chunkSize maxTotalLength fuel st'
              (start + chunkSize) (cnt + 1) tot' true acc'
          else
            deepReadLoop env url maxChunks chunkSize maxTotalLength fuel st'
              start cnt tot' false acc'
    else ⟨acc, cnt, tot, sc, st⟩

/-- `deepReadUrl` (lines 709-761) with the source's default caps. -/
def deepReadUrl (env : Env) (st : AgentState) (url : Str)
    (maxChunks : Nat := 5) (chunkSize : Nat := 2000)
    (maxTotalLength : Nat := 10000) : DeepReadOut :=
  deepReadLoop env url maxChunks chunkSize maxTotalLength (maxChunks + 2) st 0 0 0 true []

/-! ## Snippet batching (`splitIntoBatches`, lines 817-834) -/

/-- The loop of `splitIntoBatches`: `cur`/`curLen` are the
`currentBatch`/`currentLen` variables. -/
def splitIntoBatchesGo (maxLen : Nat) : List Str → List Str → Nat → List (List Str)
  | [], cur, _ => if cur = [] then [] else [cur]
  | s :: rest, cur, curLen =>
    if decide (maxLen < curLen + s.length) && !(cur = []) then
      cur :: splitIntoBatchesGo maxLen rest [s] s.length
    else
      splitIntoBatchesGo maxLen rest (cur ++ [s]) (curLen + s.length)

/-- `splitIntoBatches` (lines 817-834): greedy packing of snippets
into batches of concatenated length at most `maxLen`, never splitting
a snippet. -/
def splitIntoBatches (snippets : List Str) (maxLen : Nat) : List (List Str) :=
  splitIntoBatchesGo maxLen snippets [] 0

/-- Concatenated character length of a batch. -/
def batchLen (b : List Str) : Nat := (b.map List.length).sum

/-! ## Helper lemmas: handlers and the loop guard -/

/-- The per-tool validation-failure message (lines 55, 88, 115). -/
def invalidArgsMsg : ToolName → Str
  | .web_search => lit "Error: Invalid web_search query."
  | .read_url => lit "Error: Invalid read_url argument."
  | .instant_answer => lit "Error: Invalid instant_answer query."

/-- No handler touches the loop-guard fields or the audit log. -/
theorem runHandler_guard_fields (t : ToolName) (env : Env) (st : AgentState) (a : Json) :
    (runHandler t env st a).1.lastToolCall = st.lastToolCall ∧
    (runHandler t env st a).1.lastToolCallCount = st.lastToolCallCount ∧
    (runHandler t env st a).1.toolCallHistory = st.toolCallHistory := by
  cases t <;>
    simp only [runHandler, webSearchHandler, readUrlHandler, instantAnswerHandler,
      pushAssistant] <;>
    (repeat' split) <;> simp

/-- A failed validation leaves the state alone and emits only the
per-tool error message; in particular no transport call is made. -/
theorem runHandler_invalid (t : ToolName) (env : Env) (st : AgentState) (a : Json)
    (h : argsValid t a = false) :
    runHandler t env st a = (st, [.addMessage (invalidArgsMsg t)]) := by
  cases t <;>
    simp only [runHandler, webSearchHandler, readUrlHandler, instantAnswerHandler,
      argsValid, invalidArgsMsg] at h ⊢ <;>
    (repeat' split) <;> simp_all

/-- The guard fields after one `processToolCall`: the signature is
always recorded and the counter always advances by the
repeat-or-reset rule, before any validation or execution. -/
theorem processToolCall_guard (env : Env) (st : AgentState) (c : Call) :
    (processToolCall env st c).state.lastToolCall = some (callSig c) ∧
    (processToolCall env st c).state.lastToolCallCount = nextCount st c := by
  simp only [processToolCall]
  split
  · exact ⟨rfl, rfl⟩
  · exact ⟨(runHandler_guard_fields c.tool env _ c.args).1.trans rfl,
      (runHandler_guard_fields c.tool env _ c.args).2.1.trans rfl⟩

/-- The handler runs exactly when the advanced counter is within the
threshold. -/
theorem processToolCall_handlerRan (env : Env) (st : AgentState) (c : Call) :
    (processToolCall env st c).handlerRan =
      decide (nextCount st c ≤ MAX_TOOL_CALL_REPEAT) := by
  simp only [processToolCall]
  split <;> rename_i hcnt <;> simp <;> omega

/-- On abort the loop-error message is the only event and the handler
does not run. -/
theorem processToolCall_abort (env : Env) (st : AgentState) (c : Call)
    (h : MAX_TOOL_CALL_REPEAT < nextCount st c) :
    processToolCall env st c =
      { state :=
          { st with
            lastToolCall := some (callSig c)
            lastToolCallCount := nextCount st c }
        events := [.addMessage loopErrorText]
        handlerRan := false
        loopAborted := true } := by
  simp only [processToolCall, if_pos h]

/-! ## Concrete fixtures for witnesses and counterexamples -/

/-- A transport environment with fixed oracle answers. -/
def oracleEnv (content : Str) : Env where
  webSearch := fun _ => .ok []
  readUrl := fun _ => .ok content
  instantAnswer := fun _ => .ok .null
  modelIsGpt := true
  deepReadJudge := fun _ => .ok (lit "YES")

/-- An environment serving an `n`-character page. -/
def pageEnv (n : Nat) : Env := oracleEnv (List.replicate n 'a')

/-- A fixed page URL. -/
def wkUrl : Str := lit "https://page.example/"

/-- `read_url` arguments with `start=0`, `length=1122`. -/
def ruArgsW : Json :=
  .obj (.cons (lit "url") (.str wkUrl)
    (.cons (lit "start") (.num 0) (.cons (lit "length") (.num 1122) .nil)))

/-- A valid `read_url` call (repeated in the loop-guard witness). -/
def cRepeatW : Call := ⟨.read_url, .obj (.cons (lit "url") (.str wkUrl) .nil), false⟩

/-- A different valid call (the intervening call of the guard witness). -/
def cOtherW : Call := ⟨.web_search, .obj (.cons (lit "query") (.str (lit "q")) .nil), false⟩

/-- A `read_url` call whose `url` fails the `^https?:\/\/` validation. -/
def cInvalidW : Call := ⟨.read_url, .obj (.cons (lit "url") (.str (lit "notaurl")) .nil), false⟩

/-! ## C2: the tool-call loop guard -/

/-- **C2.** Starting from a state whose last signature differs from
`c`: three consecutive identical issues all run the handler; the 4th
consecutive identical issue does not run the handler, aborts, and
emits exactly the loop-detected error; an intervening different call
is processed with its counter reset to 1, and reissuing `c` right
after it again has counter 1 (only exact immediate repetition
triggers the guard). -/
theorem loop_guard_repeat_and_reset (env : Env) (st : AgentState) (c : Call)
    (h : st.lastToolCall ≠ some (callSig c)) :
    (processToolCall env st c).handlerRan = true ∧
    (processToolCall env (processToolCall env st c).state c).handlerRan = true ∧
    (processToolCall env (processToolCall env
      (processToolCall env st c).state c).state c).handlerRan = true ∧
    (processToolCall env (processToolCall env (processToolCall env
      (processToolCall env st c).state c).state c).state c).handlerRan = false ∧
    (processToolCall env (processToolCall env (processToolCall env
      (processToolCall env st c).state c).state c).state c).loopAborted = true ∧
    (processToolCall env (processToolCall env (processToolCall env
      (processToolCall env st c).state c).state c).state c).events =
      [.addMessage loopErrorText] ∧
    (∀ c' : Call, callSig c' ≠ callSig c →
      (processToolCall env (processToolCall env (processToolCall env
        (processToolCall env st c).state c).state c).state c').state.lastToolCallCount = 1 ∧
      (processToolCall env (processToolCall env (processToolCall env
        (processToolCall env st c).state c).state c).state c').handlerRan = true ∧
      (processToolCall env (processToolCall env (processToolCall env (processToolCall env
        (processToolCall env st c).state c).state c).state c').state c).state.lastToolCallCount
        = 1) := by
  obtain ⟨l1, n1⟩ := processToolCall_guard env st c
  have c1 : nextCount st c = 1 := by simp [nextCount, h]
  obtain ⟨l2, n2⟩ := processToolCall_guard env (processToolCall env st c).state c
  have c2 : nextCount (processToolCall env st c).state c = 2 := by
    unfold nextCount; rw [l1, n1, c1, if_pos rfl]
  obtain ⟨l3, n3⟩ := processToolCall_guard env
    (processToolCall env (processToolCall env st c).state c).state c
  have c3 : nextCount (processToolCall env (processToolCall env st c).state c).state c = 3 := by
    unfold nextCount; rw [l2, n2, c2, if_pos rfl]
  have c4 : nextCount (processToolCall env (processToolCall env
      (processToolCall env st c).state c).state c).state c = 4 := by
    unfold nextCount; rw [l3, n3, c3, if_pos rfl]
  have abort4 := processToolCall_abort env (processToolCall env (processToolCall env
    (processToolCall env st c).state c).state c).state c (by rw [c4]; decide)
  refine ⟨?_, ?_, ?_, ?_, ?_, ?_, ?_⟩
  · rw [processToolCall_handlerRan, c1]; decide
  · rw [processToolCall_handlerRan, c2]; decide
  · rw [processToolCall_handlerRan, c3]; decide
  · rw [abort4]
  · rw [abort4]
  · rw [abort4]
  · intro c' hne
    have cr : nextCount (processToolCall env (processToolCall env
        (processToolCall env st c).state c).state c).state c' = 1 := by
      unfold nextCount
      rw [l3, if_neg (fun hh => hne (Option.some.inj hh).symm)]
    obtain ⟨lr, nr⟩ := processToolCall_guard env (processToolCall env (processToolCall env
      (processToolCall env st c).state c).state c).state c'
    refine ⟨nr.trans cr, ?_, ?_⟩
    · rw [processToolCall_handlerRan, cr]; decide
    · obtain ⟨lb, nb⟩ := processToolCall_guard env (processToolCall env (processToolCall env
        (processToolCall env (processToolCall env st c).state c).state c).state c').state c
      refine nb.trans ?_
      unfold nextCount
      rw [lr, if_neg (fun hh => hne (Option.some.inj hh))]

/-- **C2** witness: the guard behavior at a concrete valid `read_url`
call from the initial state, with a concrete intervening `web_search`
call. -/
theorem loop_guard_repeat_and_reset_witness :
    (processToolCall (pageEnv 20) initialModuleState cRepeatW).handlerRan = true ∧
    (processToolCall (pageEnv 20) (processToolCall (pageEnv 20) initialModuleState
      cRepeatW).state cRepeatW).handlerRan = true ∧
    (processToolCall (pageEnv 20) (processToolCall (pageEnv 20) (processToolCall (pageEnv 20)
      initialModuleState cRepeatW).state cRepeatW).state cRepeatW).handlerRan = true ∧
    (processToolCall (pageEnv 20) (processToolCall (pageEnv 20) (processToolCall (pageEnv 20)
      (processToolCall (pageEnv 20) initialModuleState cRepeatW).state cRepeatW).state
      cRepeatW).state cRepeatW).handlerRan = false ∧
    (processToolCall (pageEnv 20) (processToolCall (pageEnv 20) (processToolCall (pageEnv 20)
      (processToolCall (pageEnv 20) initialModuleState cRepeatW).state cRepeatW).state
      cRepeatW).state cRepeatW).loopAborted = true ∧
    (processToolCall (pageEnv 20) (processToolCall (pageEnv 20) (processToolCall (pageEnv 20)
      (processToolCall (pageEnv 20) initialModuleState cRepeatW).state cRepeatW).state
      cRepeatW).state cRepeatW).events = [.addMessage loopErrorText] ∧
    (processToolCall (pageEnv 20) (processToolCall (pageEnv 20) (processToolCall (pageEnv 20)
      (processToolCall (pageEnv 20) initialModuleState cRepeatW).state cRepeatW).state
      cRepeatW).state cOtherW).state.lastToolCallCount = 1 ∧
    (processToolCall (pageEnv 20) (processToolCall (pageEnv 20) (processToolCall (pageEnv 20)
      (processToolCall (pageEnv 20) initialModuleState cRepeatW).state cRepeatW).state
      cRepeatW).state cOtherW).handlerRan = true ∧
    (processToolCall (pageEnv 20) (processToolCall (pageEnv 20) (processToolCall (pageEnv 20)
      (processToolCall (pageEnv 20) (processToolCall (pageEnv 20) initialModuleState
      cRepeatW).state cRepeatW).state cRepeatW).state cOtherW).state
      cRepeatW).state.lastToolCallCount = 1 := by
  obtain ⟨h1, h2, h3, h4, h5, h6, hrest⟩ :=
    loop_guard_repeat_and_reset (pageEnv 20) initialModuleState cRepeatW (by decide)
  obtain ⟨hr1, hr2, hr3⟩ := hrest cOtherW (by decide)
  exact ⟨h1, h2, h3, h4, h5, h6, hr1, hr2, hr3⟩

/-! ## C3: validation failure and the loop guard -/

/-- **C3** (amended).  When a call fails argument validation and the
loop guard does not fire, the underlying tool is not invoked and the
per-tool error message is the only emitted event, with no turn
appended; but the call does count toward the loop guard — the
signature is recorded and the repeat counter advances by the usual
rule — and it is logged in the audit history. -/
theorem invalid_args_not_invoked_but_counted (env : Env) (st : AgentState) (c : Call)
    (hinv : argsValid c.tool c.args = false)
    (hok : nextCount st c ≤ MAX_TOOL_CALL_REPEAT) :
    (processToolCall env st c).events = [.addMessage (invalidArgsMsg c.tool)] ∧
    (∀ t arg, Event.toolInvoked t arg ∉ (processToolCall env st c).events) ∧
    (processToolCall env st c).state.lastToolCall = some (callSig c) ∧
    (processToolCall env st c).state.lastToolCallCount = nextCount st c ∧
    (processToolCall env st c).state.toolCallHistory =
      st.toolCallHistory ++ [(c.tool, c.args)] ∧
    (processToolCall env st c).state.chatHistory = st.chatHistory := by
  have hlt : ¬ MAX_TOOL_CALL_REPEAT < nextCount st c := by omega
  simp only [processToolCall, if_neg hlt]
  rw [runHandler_invalid c.tool env _ c.args hinv]
  refine ⟨rfl, ?_, rfl, rfl, rfl, rfl⟩
  intro t arg
  simp

/-- **C3** counterexample: a `read_url` call with an invalid `url`,
processed from the fresh initial state, emits the validation error and
makes no transport call, yet the loop-guard signature *is* recorded
and the repeat counter *is* advanced (from none/0 to the call's
signature and 1), and the call is logged in the audit history —
contradicting the claim that such a call leaves the guard untouched. -/
theorem invalid_args_counterexample :
    argsValid cInvalidW.tool cInvalidW.args = false ∧
    initialModuleState.lastToolCall = none ∧
    initialModuleState.lastToolCallCount = 0 ∧
    (processToolCall (pageEnv 20) initialModuleState cInvalidW).events =
      [.addMessage (lit "Error: Invalid read_url argument.")] ∧
    (processToolCall (pageEnv 20) initialModuleState cInvalidW).state.lastToolCall =
      some (callSig cInvalidW) ∧
    (processToolCall (pageEnv 20) initialModuleState cInvalidW).state.lastToolCallCount = 1 ∧
    (processToolCall (pageEnv 20) initialModuleState cInvalidW).state.toolCallHistory =
      [(ToolName.read_url, cInvalidW.args)] := by
  decide

/-- **C3** witness for the amended theorem: the invalid `read_url`
call from the initial state. -/
theorem invalid_args_not_invoked_but_counted_witness :
    (processToolCall (pageEnv 20) initialModuleState cInvalidW).events =
      [.addMessage (invalidArgsMsg cInvalidW.tool)] ∧
    (∀ t arg, Event.toolInvoked t arg ∉
      (processToolCall (pageEnv 20) initialModuleState cInvalidW).events) ∧
    (processToolCall (pageEnv 20) initialModuleState cInvalidW).state.lastToolCall =
      some (callSig cInvalidW) ∧
    (processToolCall (pageEnv 20) initialModuleState cInvalidW).state.lastToolCallCount =
      nextCount initialModuleState cInvalidW ∧
    (processToolCall (pageEnv 20) initialModuleState cInvalidW).state.toolCallHistory =
      initialModuleState.toolCallHistory ++ [(cInvalidW.tool, cInvalidW.args)] ∧
    (processToolCall (pageEnv 20) initialModuleState cInvalidW).state.chatHistory =
      initialModuleState.chatHistory :=
  invalid_args_not_invoked_but_counted (pageEnv 20) initialModuleState cInvalidW
    (by decide) (by decide)

/-! ## C4: `read_url` slicing and the truncation indicator -/

/-- **C4.** A successful `read_url` with a string `url`, numeric
`start ≥ 0` and numeric `length > 0` appends exactly one assistant
turn holding the slice of the page from offset `start` of at most
`length` characters, with the `"..."` indicator appended exactly when
`start + length < total length`; the snippet buffer receives the
slice, the UI receives the slice with the `hasMore` flag, and the
slice's length is `min length (total - start)`. -/
theorem read_url_slice_correct (env : Env) (st : AgentState) (args : Json)
    (url content : Str) (start len : Nat)
    (hurl : jget args (lit "url") = some (.str url))
    (hvalid : ((lit "http://").isPrefixOf url || (lit "https://").isPrefixOf url) = true)
    (hok : env.readUrl url = .ok content)
    (hstart : jget args (lit "start") = some (.num (start : Int)))
    (hlen : jget args (lit "length") = some (.num (len : Int)))
    (hpos : 0 < len) :
    (readUrlHandler env st args).1.chatHistory =
      st.chatHistory ++ [⟨.assistant,
        lit "Read content from " ++ url ++ lit ":\n" ++ (content.drop start).take len ++
        (if decide (start + len < content.length) then lit "..." else [])⟩] ∧
    (readUrlHandler env st args).1.readSnippets =
      st.readSnippets ++ [(content.drop start).take len] ∧
    (readUrlHandler env st args).2.take 2 =
      [.toolInvoked .read_url url,
       .addReadResult url ((content.drop start).take len)
         (decide (start + len < content.length))] ∧
    ((content.drop start).take len).length = min len (content.length - start) := by
  have hs : ((0 : Int) ≤ (start : Int)) = True := by simp
  have hl : ((0 : Int) < (len : Int)) = True := by simp [hpos]
  simp only [readUrlHandler, hurl, hvalid, hok, hstart, hlen, if_true, hs, hl,
    Int.toNat_natCast, pushAssistant]
  simp [List.length_take, List.length_drop]

/-- **C4** witness: with `start=0`, `length=1122`, a 1500-character
page yields a 1122-character slice with `hasMore = true`, and a
1000-character page yields the whole 1000 characters with
`hasMore = false`. -/
theorem read_url_slice_correct_witness :
    (readUrlHandler (pageEnv 1500) initialModuleState ruArgsW).1.readSnippets =
      [List.replicate 1122 'a'] ∧
    (readUrlHandler (pageEnv 1500) initialModuleState ruArgsW).2.take 2 =
      [.toolInvoked .read_url wkUrl,
       .addReadResult wkUrl (List.replicate 1122 'a') true] ∧
    (readUrlHandler (pageEnv 1000) initialModuleState ruArgsW).1.readSnippets =
      [List.replicate 1000 'a'] ∧
    (readUrlHandler (pageEnv 1000) initialModuleState ruArgsW).2.take 2 =
      [.toolInvoked .read_url wkUrl,
       .addReadResult wkUrl (List.replicate 1000 'a') false] := by
  obtain ⟨_, hs1, he1, _⟩ := read_url_slice_correct (pageEnv 1500) initialModuleState
    ruArgsW wkUrl (List.replicate 1500 'a') 0 1122
    (by decide) (by decide) rfl (by decide) (by decide) (by decide)
  obtain ⟨_, hs2, he2, _⟩ := read_url_slice_correct (pageEnv 1000) initialModuleState
    ruArgsW wkUrl (List.replicate 1000 'a') 0 1122
    (by decide) (by decide) rfl (by decide) (by decide) (by decide)
  refine ⟨?_, ?_, ?_, ?_⟩
  · rw [hs1]; simp [initialModuleState, List.take_replicate]
  · rw [he1]; simp [List.take_replicate]
  · rw [hs2]; simp [initialModuleState, List.take_replicate]
  · rw [he2]; simp [List.take_replicate]

/-! ## Helper lemmas: marker occurrence and captures -/

/-- A string contains every non-empty prefix of itself. -/
theorem containsSub_of_isPrefixOf (pat s : Str) (hpat : pat ≠ [])
    (h : pat.isPrefixOf s = true) : containsSub pat s = true := by
  cases s with
  | nil =>
    cases pat with
    | nil => exact absurd rfl hpat
    | cons a l => simp [List.isPrefixOf] at h
  | cons x xs =>
    unfold containsSub splitFirstOn
    rw [if_pos h]
    rfl

/-- The `Thinking:` capture exists exactly when the marker occurs. -/
theorem cotThinkingCapture_none_iff (s : Str) :
    cotThinkingCapture s = none ↔ containsSub (lit "Thinking:") s = false := by
  unfold cotThinkingCapture containsSub
  cases h : splitFirstOn (lit "Thinking:") s <;> simp

/-- The `Answer:` capture exists exactly when the marker occurs. -/
theorem cotAnswerCapture_none_iff (s : Str) :
    cotAnswerCapture s = none ↔ containsSub (lit "Answer:") s = false := by
  unfold cotAnswerCapture containsSub
  cases h : splitFirstOn (lit "Answer:") s <;> simp

/-! ## C6: partial-thinking classification and answer carry-over -/

/-- **C6** (amended).  On an input that starts with `Thinking:` and
contains no `Answer:` marker, both classifiers report a partial
result in stage `thinking`; the final-text classifier
(`processCoTResponse`) carries the previously stored answer over into
its `answer` field (and leaves it stored), while the streaming-partial
classifier (`processPartialCoTResponse`) returns an *empty* `answer`,
not the stored one. -/
theorem cot_partial_thinking_stage (st : CoTState) (resp : Str)
    (hpre : (lit "Thinking:").isPrefixOf resp = true)
    (hans : containsSub (lit "Answer:") resp = false) :
    (processCoTResponse st resp).1.inProgress = true ∧
    (processCoTResponse st resp).1.stage = some (lit "thinking") ∧
    (processCoTResponse st resp).1.hasStructuredResponse = true ∧
    (processCoTResponse st resp).1.answer = st.lastAnswerContent ∧
    (processCoTResponse st resp).2.lastAnswerContent = st.lastAnswerContent ∧
    (processPartialCoTResponse resp).inProgress = true ∧
    (processPartialCoTResponse resp).stage = some (lit "thinking") ∧
    (processPartialCoTResponse resp).hasStructuredResponse = true ∧
    (processPartialCoTResponse resp).answer = [] := by
  have hansN : cotAnswerCapture resp = none := (cotAnswerCapture_none_iff resp).mpr hans
  have hconT : containsSub (lit "Thinking:") resp = true :=
    containsSub_of_isPrefixOf _ resp (by decide) hpre
  cases htm : cotThinkingCapture resp <;>
    simp [processCoTResponse, processPartialCoTResponse, htm, hansN, hpre, hconT, hans]

/-- **C6** counterexample: with stored answer `"42"`, the input
`"Thinking: still working"` is classified by the streaming-partial
classifier as stage `thinking` with `answer = ""` — the empty string,
not the stored answer — while the final-text classifier does carry
`"42"` over; the claim asserted the carry-over for both. -/
theorem cot_partial_answer_counterexample :
    (processCoTResponse ⟨[], lit "42"⟩ (lit "Thinking: still working")).1.answer =
      lit "42" ∧
    (processPartialCoTResponse (lit "Thinking: still working")).inProgress = true ∧
    (processPartialCoTResponse (lit "Thinking: still working")).stage =
      some (lit "thinking") ∧
    (processPartialCoTResponse (lit "Thinking: still working")).answer = [] ∧
    lit "42" ≠ ([] : Str) := by decide

/-- **C6** witness: the amended theorem at the stored answer `"42"`
and the input `"Thinking: still working"`. -/
theorem cot_partial_thinking_stage_witness :
    (processCoTResponse ⟨[], lit "42"⟩ (lit "Thinking: still working")).1.inProgress = true ∧
    (processCoTResponse ⟨[], lit "42"⟩ (lit "Thinking: still working")).1.stage =
      some (lit "thinking") ∧
    (processCoTResponse ⟨[], lit "42"⟩
      (lit "Thinking: still working")).1.hasStructuredResponse = true ∧
    (processCoTResponse ⟨[], lit "42"⟩ (lit "Thinking: still working")).1.answer =
      CoTState.lastAnswerContent ⟨[], lit "42"⟩ ∧
    (processCoTResponse ⟨[], lit "42"⟩
      (lit "Thinking: still working")).2.lastAnswerContent =
      CoTState.lastAnswerContent ⟨[], lit "42"⟩ ∧
    (processPartialCoTResponse (lit "Thinking: still working")).inProgress = true ∧
    (processPartialCoTResponse (lit "Thinking: still working")).stage =
      some (lit "thinking") ∧
    (processPartialCoTResponse
      (lit "Thinking: still working")).hasStructuredResponse = true ∧
    (processPartialCoTResponse (lit "Thinking: still working")).answer = [] :=
  cot_partial_thinking_stage ⟨[], lit "42"⟩ (lit "Thinking: still working")
    (by decide) (by decide)

/-! ## C8: totality and graceful degradation of the classifiers -/

/-- **C8.**  The classification functions are total Lean functions
(they never raise); a missing brace span or a JSON parse failure makes
`extractToolCall` return `none` (degrading to prose handling); and on
every input each CoT classifier lands in one of its defined
classification cases: complete structured, partial thinking (with the
carried or empty answer respectively), or plain text echoing the whole
input as the answer. -/
theorem classifiers_never_raise :
    (∀ s t, braceSpan s = some t → parseJsonTop t = none → extractToolCall s = none) ∧
    (∀ s, braceSpan s = none → extractToolCall s = none) ∧
    (∀ (st : CoTState) (resp : Str),
      ((processCoTResponse st resp).1.hasStructuredResponse = true ∧
        (processCoTResponse st resp).1.inProgress = false ∧
        (processCoTResponse st resp).1.stage = none) ∨
      ((processCoTResponse st resp).1.hasStructuredResponse = true ∧
        (processCoTResponse st resp).1.inProgress = true ∧
        (processCoTResponse st resp).1.stage = some (lit "thinking") ∧
        (processCoTResponse st resp).1.answer = st.lastAnswerContent) ∨
      ((processCoTResponse st resp).1.hasStructuredResponse = false ∧
        (processCoTResponse st resp).1.thinking = [] ∧
        (processCoTResponse st resp).1.answer = resp ∧
        (processCoTResponse st resp).2 = st)) ∧
    (∀ fullText : Str,
      ((processPartialCoTResponse fullText).hasStructuredResponse = true ∧
        (processPartialCoTResponse fullText).inProgress = false ∧
        (processPartialCoTResponse fullText).stage = none) ∨
      ((processPartialCoTResponse fullText).hasStructuredResponse = true ∧
        (processPartialCoTResponse fullText).inProgress = true ∧
        (processPartialCoTResponse fullText).stage = some (lit "thinking") ∧
        (processPartialCoTResponse fullText).answer = []) ∨
      ((processPartialCoTResponse fullText).hasStructuredResponse = false ∧
        (processPartialCoTResponse fullText).thinking = [] ∧
        (processPartialCoTResponse fullText).answer = fullText)) := by
  refine ⟨?_, ?_, ?_, ?_⟩
  · intro s t hspan hparse
    unfold extractToolCall
    rw [hspan]
    simpa using hparse
  · intro s hspan
    unfold extractToolCall
    rw [hspan]
    rfl
  · intro st resp
    rcases htm : cotThinkingCapture resp with _ | tm
    · have hconT : containsSub (lit "Thinking:") resp = false :=
        (cotThinkingCapture_none_iff resp).mp htm
      have hpre : (lit "Thinking:").isPrefixOf resp = false := by
        cases hp : (lit "Thinking:").isPrefixOf resp
        · rfl
        · exact absurd (containsSub_of_isPrefixOf _ resp (by decide) hp)
            (by rw [hconT]; decide)
      rcases ham : cotAnswerCapture resp with _ | am <;>
        · right; right
          simp [processCoTResponse, htm, ham, hpre, hconT]
    · have hconT : containsSub (lit "Thinking:") resp = true := by
        cases hc : containsSub (lit "Thinking:") resp
        · exact absurd ((cotThinkingCapture_none_iff resp).mpr hc) (by rw [htm]; simp)
        · rfl
      rcases ham : cotAnswerCapture resp with _ | am
      · have hans : containsSub (lit "Answer:") resp = false :=
          (cotAnswerCapture_none_iff resp).mp ham
        by_cases hpre : (lit "Thinking:").isPrefixOf resp = true
        · right; left
          simp [processCoTResponse, htm, ham, hpre, hans]
        · right; right
          have hpre' : (lit "Thinking:").isPrefixOf resp = false :=
            Bool.eq_false_iff.mpr hpre
          simp [processCoTResponse, htm, ham, hpre', hans]
      · left
        simp [processCoTResponse, htm, ham]
  · intro fullText
    rcases htm : cotThinkingCapture fullText with _ | tm
    · have hconT : containsSub (lit "Thinking:") fullText = false :=
        (cotThinkingCapture_none_iff fullText).mp htm
      right; right
      simp [processPartialCoTResponse, hconT]
    · have hconT : containsSub (lit "Thinking:") fullText = true := by
        cases hc : containsSub (lit "Thinking:") fullText
        · exact absurd ((cotThinkingCapture_none_iff fullText).mpr hc) (by rw [htm]; simp)
        · rfl
      rcases ham : cotAnswerCapture fullText with _ | am
      · have hans : containsSub (lit "Answer:") fullText = false :=
          (cotAnswerCapture_none_iff fullText).mp ham
        right; left
        simp [processPartialCoTResponse, hconT, hans]
      · have hans : containsSub (lit "Answer:") fullText = true := by
          cases hc : containsSub (lit "Answer:") fullText
          · exact absurd ((cotAnswerCapture_none_iff fullText).mpr hc) (by rw [ham]; simp)
          · rfl
        left
        simp [processPartialCoTResponse, hconT, hans, htm, ham]

/-- **C8** witness: a reply whose brace span is not valid JSON is
classified as not-a-tool-call (`none`) rather than raising. -/
theorem classifiers_never_raise_witness :
    extractToolCall (lit "see \x7bnot json\x7d") = none :=
  classifiers_never_raise.1 (lit "see \x7bnot json\x7d") (lit "\x7bnot json\x7d")
    (by decide) (by decide)

/-! ## C1: tool-call extraction from surrounded replies -/

/-- `firstIdxOf` over an occurrence-free prefix. -/
theorem firstIdxOf_append_of_not_mem (c : Char) (p s : Str) (hp : c ∉ p) :
    firstIdxOf c (p ++ s) = (firstIdxOf c s).map (· + p.length) := by
  induction p with
  | nil => simp [Option.map_id']
  | cons x xs ih =>
    have hx : ¬ x = c := fun hh => hp (by simp [hh])
    have hxs : c ∉ xs := fun hh => hp (List.mem_cons_of_mem _ hh)
    simp only [List.cons_append, firstIdxOf, if_neg hx, List.append_eq, ih hxs]
    cases firstIdxOf c s with
    | none => rfl
    | some v =>
      simp
      omega

/-- `firstIdxOf` at an occurrence in head position. -/
theorem firstIdxOf_cons_self (c : Char) (xs : Str) :
    firstIdxOf c (c :: xs) = some 0 := by
  simp [firstIdxOf]

/-- The greedy brace span of a reply whose surroundings are
brace-free: exactly the embedded `\x7b...\x7d` block. -/
theorem braceSpan_embedded (p q mid : Str)
    (hp : '\x7b' ∉ p) (hq : '\x7d' ∉ q) :
    braceSpan (p ++ ('\x7b' :: mid ++ ['\x7d']) ++ q) =
      some ('\x7b' :: mid ++ ['\x7d']) := by
  have hsplit : p ++ ('\x7b' :: mid ++ ['\x7d']) ++ q =
      p ++ ('\x7b' :: (mid ++ '\x7d' :: q)) := by simp
  have hfirst : firstIdxOf '\x7b' (p ++ ('\x7b' :: mid ++ ['\x7d']) ++ q) =
      some p.length := by
    rw [hsplit, firstIdxOf_append_of_not_mem _ _ _ hp, firstIdxOf_cons_self]
    simp
  have hq' : '\x7d' ∉ q.reverse := fun hh => hq (List.mem_reverse.mp hh)
  have hlast : lastIdxOf '\x7d' (p ++ ('\x7b' :: mid ++ ['\x7d']) ++ q) =
      some (p.length + mid.length + 1) := by
    unfold lastIdxOf
    have hrev : (p ++ ('\x7b' :: mid ++ ['\x7d']) ++ q).reverse =
        q.reverse ++ ('\x7d' :: (mid.reverse ++ '\x7b' :: p.reverse)) := by
      simp
    rw [hrev, firstIdxOf_append_of_not_mem _ _ _ hq', firstIdxOf_cons_self]
    have hlen : (p ++ ('\x7b' :: mid ++ ['\x7d']) ++ q).length =
        p.length + mid.length + 2 + q.length := by simp; omega
    simp only [hlen]
    simp
  have hlt : p.length < p.length + mid.length + 1 := by omega
  unfold braceSpan
  rw [hfirst, hlast]
  dsimp only
  rw [if_pos hlt]
  congr 1
  have harith : p.length + mid.length + 1 - p.length + 1 = mid.length + 2 := by omega
  rw [List.append_assoc, List.drop_left, harith]
  have hjlen : mid.length + 2 = ('\x7b' :: mid ++ ['\x7d']).length := by
    simp
  rw [hjlen, List.take_left]

/-- **C1** (amended).  For a reply built from a well-formed tool-call
JSON block surrounded by prose, extraction succeeds provided the
surroundings contain no brace characters: no `\x7b` before the block
and no `\x7d` after it.  (The greedy first-`\x7b`-to-last-`\x7d` match
makes brace-bearing surroundings poison the parse, see the
counterexample.) -/
theorem extract_toolcall_embedded (p q mid : Str) (jv : Json) (tc : ToolName × Json)
    (hp : '\x7b' ∉ p) (hq : '\x7d' ∉ q)
    (hparse : parseJsonTop ('\x7b' :: mid ++ ['\x7d']) = some jv)
    (htc : asToolCall jv = some tc) :
    extractToolCall (p ++ ('\x7b' :: mid ++ ['\x7d']) ++ q) = some jv ∧
    asToolCall jv = some tc := by
  refine ⟨?_, htc⟩
  unfold extractToolCall
  rw [braceSpan_embedded p q mid hp hq]
  simpa using hparse

/-- The reply of the **C1** counterexample: a valid `web_search`
tool-call JSON embedded in prose whose trailing text carries braces. -/
def c1Reply : Str :=
  lit "I will search now. \x7b\"tool\":\"web_search\",\"arguments\":\x7b\"query\":\"x\"\x7d\x7d and \x7bdone\x7d"

/-- The embedded well-formed tool-call JSON of the counterexample. -/
def c1Embedded : Str :=
  lit "\x7b\"tool\":\"web_search\",\"arguments\":\x7b\"query\":\"x\"\x7d\x7d"

/-- **C1** counterexample: the reply contains (as a contiguous
substring) a syntactically valid tool-call JSON object with a
recognized tool and an `arguments` object, yet `extractToolCall`
returns `none`: the greedy brace regex spans up to the last `\x7d` of
the trailing prose and that span fails to parse. -/
theorem extract_toolcall_counterexample :
    (∃ p q, c1Reply = p ++ c1Embedded ++ q) ∧
    parseToolCall c1Embedded =
      some (.web_search, .obj (.cons (lit "query") (.str (lit "x")) .nil)) ∧
    extractToolCall c1Reply = none := by
  refine ⟨⟨lit "I will search now. ", lit " and \x7bdone\x7d", by decide⟩, by decide, by decide⟩

/-- **C1** witness for the amended theorem: the same embedded JSON
with brace-free prose around it is extracted and parsed. -/
theorem extract_toolcall_embedded_witness :
    extractToolCall (lit "Sure: " ++ c1Embedded ++ lit " now.") =
      some (.obj (.cons (lit "tool") (.str (lit "web_search"))
        (.cons (lit "arguments")
          (.obj (.cons (lit "query") (.str (lit "x")) .nil)) .nil))) ∧
    asToolCall (.obj (.cons (lit "tool") (.str (lit "web_search"))
        (.cons (lit "arguments")
          (.obj (.cons (lit "query") (.str (lit "x")) .nil)) .nil))) =
      some (.web_search, .obj (.cons (lit "query") (.str (lit "x")) .nil)) := by
  have h := extract_toolcall_embedded (lit "Sure: ") (lit " now.")
    (lit "\"tool\":\"web_search\",\"arguments\":\x7b\"query\":\"x\"\x7d")
    (.obj (.cons (lit "tool") (.str (lit "web_search"))
      (.cons (lit "arguments")
        (.obj (.cons (lit "query") (.str (lit "x")) .nil)) .nil)))
    (.web_search, .obj (.cons (lit "query") (.str (lit "x")) .nil))
    (by decide) (by decide) (by decide) (by decide)
  exact h

/-! ## C7: snippet batching -/

/-- A batch is within budget, or is a single oversized snippet. -/
def batchOk (maxLen : Nat) (b : List Str) : Prop :=
  batchLen b ≤ maxLen ∨ ∃ x, b = [x] ∧ maxLen < x.length

/-- The batching loop flushes and returns exactly the input elements,
in order. -/
theorem splitIntoBatchesGo_join (maxLen : Nat) :
    ∀ (rest cur : List Str) (curLen : Nat),
      (splitIntoBatchesGo maxLen rest cur curLen).flatten = cur ++ rest := by
  intro rest
  induction rest with
  | nil =>
    intro cur curLen
    by_cases h : cur = [] <;> simp [splitIntoBatchesGo, h]
  | cons s rest ih =>
    intro cur curLen
    simp only [splitIntoBatchesGo]
    split
    · simp [ih]
    · simp [ih]

/-- Every batch the loop emits is non-empty. -/
theorem splitIntoBatchesGo_ne_nil (maxLen : Nat) :
    ∀ (rest cur : List Str) (curLen : Nat) (b : List Str),
      b ∈ splitIntoBatchesGo maxLen rest cur curLen → b ≠ [] := by
  intro rest
  induction rest with
  | nil =>
    intro cur curLen b hb
    by_cases h : cur = []
    · simp [splitIntoBatchesGo, h] at hb
    · simp [splitIntoBatchesGo, h] at hb
      simpa [hb] using h
  | cons s rest ih =>
    intro cur curLen b hb
    simp only [splitIntoBatchesGo] at hb
    split at hb
    · rename_i hcond
      rcases List.mem_cons.mp hb with hb1 | hb2
      · subst hb1
        simpa using (Bool.and_eq_true_iff.mp hcond).2
      · exact ih _ _ b hb2
    · exact ih _ _ b hb

/-- `batchLen` over an append. -/
theorem batchLen_append (a b : List Str) :
    batchLen (a ++ b) = batchLen a + batchLen b := by
  simp [batchLen]

/-- Every batch the loop emits is within budget or a single oversized
snippet, provided the running accumulator satisfies the same bound. -/
theorem splitIntoBatchesGo_size (maxLen : Nat) :
    ∀ (rest cur : List Str) (curLen : Nat),
      curLen = batchLen cur →
      (cur = [] ∨ batchOk maxLen cur) →
      ∀ b ∈ splitIntoBatchesGo maxLen rest cur curLen, batchOk maxLen b := by
  intro rest
  induction rest with
  | nil =>
    intro cur curLen hlen hok b hb
    by_cases h : cur = []
    · simp [splitIntoBatchesGo, h] at hb
    · simp [splitIntoBatchesGo, h] at hb
      subst hb
      exact hok.resolve_left h
  | cons s rest ih =>
    intro cur curLen hlen hok b hb
    have hsok : batchOk maxLen [s] := by
      by_cases hs : s.length ≤ maxLen
      · left; simpa [batchLen] using hs
      · right; exact ⟨s, rfl, by omega⟩
    simp only [splitIntoBatchesGo] at hb
    split at hb
    · rename_i hcond
      rcases List.mem_cons.mp hb with hb1 | hb2
      · subst hb1
        refine hok.resolve_left ?_
        have := (Bool.and_eq_true _ _ |>.mp hcond).2
        simpa using this
      · exact ih [s] s.length (by simp [batchLen]) (Or.inr hsok) b hb2
    · rename_i hcond
      have hok' : (cur ++ [s]) = [] ∨ batchOk maxLen (cur ++ [s]) := by
        by_cases hc : cur = []
        · subst hc
          exact Or.inr (by simpa using hsok)
        · have hle : curLen + s.length ≤ maxLen := by
            by_contra hgt
            have hlt : maxLen < curLen + s.length := by omega
            exact hcond (by simp [hlt, hc])
          right; left
          rw [batchLen_append, ← hlen]
          have hone : batchLen [s] = s.length := by simp [batchLen]
          rw [hone]
          omega
      exact ih (cur ++ [s]) (curLen + s.length)
        (by rw [batchLen_append, ← hlen]; simp [batchLen]) hok' b hb

/-- **C7.** For every snippet list and positive budget,
`splitIntoBatches` partitions the input exactly (its concatenation is
the input, in order, so no snippet is ever split), every batch is
non-empty, and every batch's concatenated length is at most the
budget except when the batch is a single snippet that alone exceeds
it. -/
theorem splitIntoBatches_partition (snippets : List Str) (maxLen : Nat)
    (_hpos : 0 < maxLen) :
    (splitIntoBatches snippets maxLen).flatten = snippets ∧
    (∀ b ∈ splitIntoBatches snippets maxLen, b ≠ []) ∧
    (∀ b ∈ splitIntoBatches snippets maxLen,
      batchLen b ≤ maxLen ∨ ∃ x, b = [x] ∧ maxLen < x.length) := by
  refine ⟨?_, ?_, ?_⟩
  · simpa using splitIntoBatchesGo_join maxLen snippets [] 0
  · exact fun b hb => splitIntoBatchesGo_ne_nil maxLen snippets [] 0 b hb
  · exact fun b hb =>
      splitIntoBatchesGo_size maxLen snippets [] 0 (by simp [batchLen]) (Or.inl rfl) b hb

/-- **C7** witness: a concrete batching run with budget 4 over
snippets of lengths 2, 2, 1 and 6 — batches `[["aa","bb"], ["c"],
["dddddd"]]`: an exact ordered partition, all batches non-empty, the
oversized snippet alone in its (over-budget) batch, unsplit. -/
theorem splitIntoBatches_partition_witness :
    0 < 4 ∧
    splitIntoBatches [lit "aa", lit "bb", lit "c", lit "dddddd"] 4 =
      [[lit "aa", lit "bb"], [lit "c"], [lit "dddddd"]] ∧
    (splitIntoBatches [lit "aa", lit "bb", lit "c", lit "dddddd"] 4).flatten =
      [lit "aa", lit "bb", lit "c", lit "dddddd"] ∧
    (∀ b ∈ splitIntoBatches [lit "aa", lit "bb", lit "c", lit "dddddd"] 4, b ≠ []) ∧
    (∀ b ∈ splitIntoBatches [lit "aa", lit "bb", lit "c", lit "dddddd"] 4,
      batchLen b ≤ 4 ∨ ∃ x, b = [x] ∧ 4 < x.length) := by
  obtain ⟨h1, h2, h3⟩ := splitIntoBatches_partition
    [lit "aa", lit "bb", lit "c", lit "dddddd"] 4 (by decide)
  exact ⟨by decide, by decide, h1, h2, h3⟩

/-! ## C9: the conversation-log invariant -/

/-- Exactly one system turn, and it is the first entry. -/
def HistInv (st : AgentState) : Prop :=
  match st.chatHistory with
  | [] => False
  | t :: rest => t.role = Role.system ∧ ∀ u ∈ rest, u.role ≠ Role.system

/-- Handlers only append assistant turns to the conversation log. -/
theorem runHandler_chatHistory (t : ToolName) (env : Env) (st : AgentState) (a : Json) :
    ∃ ts : List Turn, (runHandler t env st a).1.chatHistory = st.chatHistory ++ ts ∧
      ∀ u ∈ ts, u.role = Role.assistant := by
  cases t <;>
    simp only [runHandler, webSearchHandler, readUrlHandler, instantAnswerHandler,
      pushAssistant] <;>
    (repeat' split) <;>
    first
      | (refine ⟨[], ?_, ?_⟩ <;> simp <;> done)
      | (refine ⟨_, rfl, ?_⟩; simp)

/-- `processToolCall` only appends assistant turns to the log. -/
theorem processToolCall_chatHistory (env : Env) (st : AgentState) (c : Call) :
    ∃ ts : List Turn, (processToolCall env st c).state.chatHistory = st.chatHistory ++ ts ∧
      ∀ u ∈ ts, u.role = Role.assistant := by
  simp only [processToolCall]
  split
  · exact ⟨[], by simp, by simp⟩
  · exact runHandler_chatHistory c.tool env _ c.args

/-- The in-session public operations, each mapped to its source site:
`processToolCall` (lines 649-690); the user-turn pushes of the message
flow (lines 356, 362, 520); the assistant-reply pushes of the message
flow (lines 445, 448, 498, 504, 580, 583, 634, 640); `updateSettings`
(lines 170-173).  `init` and `clearChat` reset the log wholesale and
are the session boundaries. -/
inductive OpStep (env : Env) : AgentState → AgentState → Prop
  | toolCall (st : AgentState) (c : Call) : OpStep env st (processToolCall env st c).state
  | userTurn (st : AgentState) (m : Str) : OpStep env st (pushUser st m)
  | assistantTurn (st : AgentState) (r : Str) : OpStep env st (pushAssistant st r)
  | settingsUpdate (st : AgentState) (p : SettingsPatch) :
      OpStep env st { st with settings := applySettingsPatch st.settings p }

/-- Every in-session step appends system-free turns to the log. -/
theorem opStep_appends {env : Env} {st st' : AgentState} (h : OpStep env st st') :
    ∃ ts : List Turn, st'.chatHistory = st.chatHistory ++ ts ∧
      ∀ u ∈ ts, u.role ≠ Role.system := by
  cases h with
  | toolCall c =>
    obtain ⟨ts, h1, h2⟩ := processToolCall_chatHistory env st c
    exact ⟨ts, h1, fun u hu => by rw [h2 u hu]; decide⟩
  | userTurn m => exact ⟨[⟨.user, m⟩], rfl, by simp⟩
  | assistantTurn r => exact ⟨[⟨.assistant, r⟩], rfl, by simp⟩
  | settingsUpdate p => exact ⟨[], by simp, by simp⟩

/-- The chat log seeded by `init` is the single system turn. -/
theorem initChat_chatHistory (st : AgentState) (p : Option SettingsPatch) :
    (initChat st p).chatHistory = [systemTurn] := by
  cases p <;> rfl

/-- **C9** (amended).  In every state reachable from `init` through
the in-session operations (`processToolCall`, the message-flow turn
pushes, `updateSettings`) — that is, without a `clearChat` — the
conversation log contains exactly one system turn, which is the first
entry, and the log grows append-only (the post-`init` log is a prefix
of every later log).  `clearChat` and `init` themselves replace the
log wholesale; `clearChat` empties it, see the counterexample. -/
theorem session_history_invariant (env : Env) (st0 : AgentState)
    (p : Option SettingsPatch) (st : AgentState)
    (h : Relation.ReflTransGen (OpStep env) (initChat st0 p) st) :
    HistInv st ∧ (initChat st0 p).chatHistory <+: st.chatHistory := by
  induction h with
  | refl =>
    refine ⟨?_, List.prefix_refl _⟩
    rw [HistInv, initChat_chatHistory]
    exact ⟨rfl, by simp⟩
  | tail hsteps hstep ih =>
    obtain ⟨hinv, hpre⟩ := ih
    obtain ⟨ts, heq, hts⟩ := opStep_appends hstep
    rename_i stmid stlast
    constructor
    · rw [HistInv] at hinv ⊢
      rcases hh : stmid.chatHistory with _ | ⟨t, rest⟩
      · rw [hh] at hinv; exact absurd hinv (by simp)
      · rw [hh] at hinv
        rw [heq, hh, List.cons_append]
        refine ⟨hinv.1, ?_⟩
        intro u hu
        rcases List.mem_append.mp hu with hu1 | hu2
        · exact hinv.2 u hu1
        · exact hts u hu2
    · exact hpre.trans ⟨ts, heq.symm⟩

/-- **C9** counterexample: `clearChat` — one of the public operations
the claim quantifies over — empties the log, so right after it the
log has no system turn at all (and a following user push would make a
user turn the first entry); the claimed invariant fails there. -/
theorem history_invariant_counterexample :
    (clearChat (initChat initialModuleState none)).chatHistory = [] ∧
    ¬ HistInv (clearChat (initChat initialModuleState none)) ∧
    (pushUser (clearChat (initChat initialModuleState none)) (lit "hi")).chatHistory =
      [⟨Role.user, lit "hi"⟩] ∧
    ¬ HistInv (pushUser (clearChat (initChat initialModuleState none)) (lit "hi")) := by
  refine ⟨rfl, ?_, rfl, ?_⟩
  · rw [HistInv]; simp [clearChat]
  · rw [HistInv]; simp [pushUser, clearChat]

/-- **C9** witness: the invariant at the initial reachable state. -/
theorem session_history_invariant_witness :
    HistInv (initChat initialModuleState none) ∧
    (initChat initialModuleState none).chatHistory <+:
      (initChat initialModuleState none).chatHistory :=
  session_history_invariant (pageEnv 20) initialModuleState none
    (initChat initialModuleState none) Relation.ReflTransGen.refl

/-! ## C10: the frame of `clearChat` -/

/-- **C10.** `clearChat` empties the conversation log and zeroes the
token counter, and changes nothing else: the snippet buffer, the read
cache, the loop-guard signature and counter, the last search results,
the highlighted indices, the audit log, the settings, and the CoT
snapshots all keep their values. -/
theorem clearChat_frame (st : AgentState) :
    (clearChat st).chatHistory = [] ∧
    (clearChat st).totalTokens = 0 ∧
    (clearChat st).readSnippets = st.readSnippets ∧
    (clearChat st).readCache = st.readCache ∧
    (clearChat st).lastToolCall = st.lastToolCall ∧
    (clearChat st).lastToolCallCount = st.lastToolCallCount ∧
    (clearChat st).lastSearchResults = st.lastSearchResults ∧
    (clearChat st).highlightedResultIndices = st.highlightedResultIndices ∧
    (clearChat st).toolCallHistory = st.toolCallHistory ∧
    (clearChat st).settings = st.settings ∧
    (clearChat st).isThinking = st.isThinking ∧
    (clearChat st).lastThinkingContent = st.lastThinkingContent ∧
    (clearChat st).lastAnswerContent = st.lastAnswerContent ∧
    (clearChat st).autoReadInProgress = st.autoReadInProgress :=
  ⟨rfl, rfl, rfl, rfl, rfl, rfl, rfl, rfl, rfl, rfl, rfl, rfl, rfl, rfl⟩

/-! ## C5: the deep-read loop

The claim's document is 10000 characters; kernel evaluation at that
size is infeasible, so the trace is proved algebraically over an
abstract newline-free document of length 10000. -/

/-- Cache lookup through a JS `Map.set`-style update. -/
theorem cacheGet_cacheSet (c : List (Str × Str)) (k v k' : Str) :
    cacheGet (cacheSet c k v) k' = if k = k' then some v else cacheGet c k' := by
  induction c with
  | nil =>
    by_cases h : k = k' <;> simp [cacheSet, cacheGet, h]
  | cons hd tl ih =>
    obtain ⟨a, b⟩ := hd
    by_cases hak : a = k
    · subst hak
      by_cases h : a = k' <;> simp [cacheSet, cacheGet, h]
    · by_cases h : k = k'
      · subst h
        have hak' : ¬ a = k := hak
        simp [cacheSet, cacheGet, hak, hak', ih]
      · simp only [cacheSet, if_neg hak, cacheGet]
        by_cases hb2 : a = k' <;> simp [hb2, ih, h]

/-- The prefix test succeeds on any extension of the prefix. -/
theorem isPrefixOf_append_self (xs ys : Str) : xs.isPrefixOf (xs ++ ys) = true := by
  rw [List.isPrefixOf_iff_prefix]
  exact ⟨ys, rfl⟩

/-- `splitOnCharL` at the first separator occurrence. -/
theorem splitOnCharL_append_sep (sep : Char) (xs ys : Str) (h : sep ∉ xs) :
    splitOnCharL sep (xs ++ sep :: ys) = xs :: splitOnCharL sep ys := by
  induction xs with
  | nil => simp [splitOnCharL]
  | cons a tl ih =>
    have ha : ¬ a = sep := fun hh => h (by simp [hh])
    have htl : sep ∉ tl := fun hh => h (List.mem_cons_of_mem _ hh)
    rw [List.cons_append]
    simp only [splitOnCharL, if_neg ha, ih htl]

/-- `splitOnCharL` on separator-free text. -/
theorem splitOnCharL_no_sep (sep : Char) (zs : Str) (h : sep ∉ zs) :
    splitOnCharL sep zs = [zs] := by
  induction zs with
  | nil => rfl
  | cons a tl ih =>
    have ha : ¬ a = sep := fun hh => h (by simp [hh])
    have htl : sep ∉ tl := fun hh => h (List.mem_cons_of_mem _ hh)
    simp only [splitOnCharL, if_neg ha, ih htl]

/-- Joining the two-part split back (the snippet-recovery round trip
of lines 725-726): dropping the header line of `header ++ '\n' ::
body` and re-joining yields `body`, when neither part holds a newline
elsewhere. -/
theorem snippet_recovery (header body : Str) (hh : '\n' ∉ header) (hb : '\n' ∉ body) :
    joinSep '\n' ((splitOnCharL '\n' (header ++ '\n' :: body)).drop 1) = body := by
  rw [splitOnCharL_append_sep '\n' header body hh, splitOnCharL_no_sep '\n' body hb]
  rfl

/-- `url` lookup in the deep-read arguments. -/
theorem jget_deepArgs_url (start : Nat) :
    jget (readArgsJson wkUrl start 2000) (lit "url") = some (.str wkUrl) := by
  have h1 : ¬ (lit "length" = lit "url") := by decide
  have h2 : ¬ (lit "start" = lit "url") := by decide
  simp [readArgsJson, jget, JsonFields.lookupLast, h1, h2]

/-- `start` lookup in the deep-read arguments. -/
theorem jget_deepArgs_start (start : Nat) :
    jget (readArgsJson wkUrl start 2000) (lit "start") = some (.num (start : Int)) := by
  have h1 : ¬ (lit "length" = lit "start") := by decide
  simp [readArgsJson, jget, JsonFields.lookupLast, h1]

/-- `length` lookup in the deep-read arguments. -/
theorem jget_deepArgs_length (start : Nat) :
    jget (readArgsJson wkUrl start 2000) (lit "length") = some (.num ((2000 : Nat) : Int)) := by
  simp [readArgsJson, jget, JsonFields.lookupLast]

/-- The snippet a deep-read iteration extracts from the appended turn:
the 2000-character slice, plus the `"..."` marker the handler appended
when more content remained (the marker is carried into the snippet by
the `split('\n')` recovery of lines 725-726). -/
def deepSnip (doc : Str) (start : Nat) : Str :=
  (doc.drop start).take 2000 ++
    (if decide (start + 2000 < doc.length) then lit "..." else [])

/-- The state after one uncached deep-read iteration: the loop-guard
fields point at this iteration's call, the call is logged, the turn is
appended, the slice buffered, and the cache holds the recovered
snippet under `url:start:chunkSize`. -/
def deepStepState (doc : Str) (st : AgentState) (start : Nat) : AgentState :=
  { st with
    lastToolCall := some (ToolName.read_url, readArgsJson wkUrl start 2000)
    lastToolCallCount := 1
    toolCallHistory := st.toolCallHistory ++ [(ToolName.read_url, readArgsJson wkUrl start 2000)]
    chatHistory := st.chatHistory ++
      [⟨.assistant, lit "Read content from " ++ wkUrl ++ lit ":\n" ++
        (doc.drop start).take 2000 ++
        (if decide (start + 2000 < doc.length) then lit "..." else [])⟩]
    readSnippets := st.readSnippets ++ [(doc.drop start).take 2000]
    readCache := cacheSet st.readCache
      (wkUrl ++ ':' :: natToStr start ++ ':' :: natToStr 2000) (deepSnip doc start) }

/-- One deep-read `read_url` call (with `skipContinue`), reduced. -/
theorem processToolCall_deepRead (doc : Str) (st : AgentState) (start : Nat)
    (hsig : st.lastToolCall ≠ some (ToolName.read_url, readArgsJson wkUrl start 2000)) :
    processToolCall (oracleEnv doc) st ⟨.read_url, readArgsJson wkUrl start 2000, true⟩ =
      { state :=
          { st with
            lastToolCall := some (ToolName.read_url, readArgsJson wkUrl start 2000)
            lastToolCallCount := 1
            toolCallHistory := st.toolCallHistory ++ [(ToolName.read_url, readArgsJson wkUrl start 2000)]
            chatHistory := st.chatHistory ++
              [⟨.assistant, lit "Read content from " ++ wkUrl ++ lit ":\n" ++
                (doc.drop start).take 2000 ++
                (if decide (start + 2000 < doc.length) then lit "..." else [])⟩]
            readSnippets := st.readSnippets ++ [(doc.drop start).take 2000] }
        events :=
          [.toolInvoked .read_url wkUrl,
           .addReadResult wkUrl ((doc.drop start).take 2000)
             (decide (start + 2000 < doc.length))] ++
          (if 2 ≤ (st.readSnippets ++ [(doc.drop start).take 2000]).length then
            [Event.addSummarizeButton] else [])
        handlerRan := true
        loopAborted := false } := by
  have hcnt : nextCount st ⟨.read_url, readArgsJson wkUrl start 2000, true⟩ = 1 := by
    unfold nextCount
    rw [if_neg (by simpa [callSig] using hsig)]
  simp only [processToolCall, hcnt]
  rw [if_neg (by decide)]
  simp only [runHandler, readUrlHandler, jget_deepArgs_url, jget_deepArgs_start,
    jget_deepArgs_length]
  rw [if_pos (by decide : ((lit "http://").isPrefixOf wkUrl ||
    (lit "https://").isPrefixOf wkUrl) = true)]
  simp only [oracleEnv]
  rw [if_pos (by positivity : (0 : Int) ≤ (start : Int)),
    if_pos (by decide : (0 : Int) < ((2000 : Nat) : Int))]
  simp [pushAssistant, Int.toNat_natCast, callSig]

/-- One uncached deep-read iteration, reduced: fetch the chunk through
`processToolCall`, recover the snippet from the appended turn, cache
it, and continue or stop by the yes-reply and the cumulative-length
check. -/
theorem deepReadLoop_step (doc : Str) (hlen : doc.length = 10000) (hnl : '\n' ∉ doc)
    (fuel fuel' start cnt tot : Nat) (st : AgentState) (acc : List Str)
    (hfuel : fuel = fuel' + 1)
    (hcnt : cnt < 5) (htot : tot < 10000) (hstart : start < 10000)
    (hcache : cacheGet st.readCache
      (wkUrl ++ ':' :: natToStr start ++ ':' :: natToStr 2000) = none)
    (hsig : st.lastToolCall ≠ some (ToolName.read_url, readArgsJson wkUrl start 2000)) :
    deepReadLoop (oracleEnv doc) wkUrl 5 2000 10000 fuel st start cnt tot true acc =
      (if tot + (deepSnip doc start).length < 10000 then
        deepReadLoop (oracleEnv doc) wkUrl 5 2000 10000 fuel' (deepStepState doc st start)
          (start + 2000) (cnt + 1) (tot + (deepSnip doc start).length) true
          (acc ++ [deepSnip doc start])
      else
        deepReadLoop (oracleEnv doc) wkUrl 5 2000 10000 fuel' (deepStepState doc st start)
          start cnt (tot + (deepSnip doc start).length) false
          (acc ++ [deepSnip doc start])) := by
  subst hfuel
  have hguard : (true && decide (cnt < 5) && decide (tot < 10000)) = true := by
    simp [hcnt, htot]
  have hnlSlice : '\n' ∉ (doc.drop start).take 2000 := fun hh =>
    hnl (List.drop_subset _ _ (List.take_subset _ _ hh))
  have hnlHeader : '\n' ∉ lit "Read content from " ++ wkUrl ++ [':'] := by decide
  have hnlBody : '\n' ∉ (doc.drop start).take 2000 ++
      (if decide (start + 2000 < doc.length) then lit "..." else []) := by
    intro hh
    rcases List.mem_append.mp hh with h1 | h2
    · exact hnlSlice h1
    · revert h2
      split <;> decide
  have hturn : lit "Read content from " ++ wkUrl ++ lit ":\n" ++
      (doc.drop start).take 2000 ++
      (if decide (start + 2000 < doc.length) then lit "..." else []) =
      (lit "Read content from " ++ wkUrl ++ [':']) ++ '\n' ::
        ((doc.drop start).take 2000 ++
          (if decide (start + 2000 < doc.length) then lit "..." else [])) := by
    simp only [List.append_assoc]
    rfl
  have hpref : (lit "Read content from").isPrefixOf
      (lit "Read content from " ++ wkUrl ++ lit ":\n" ++
        (doc.drop start).take 2000 ++
        (if decide (start + 2000 < doc.length) then lit "..." else [])) = true := by
    rw [List.isPrefixOf_iff_prefix]
    have h0 : lit "Read content from" <+: lit "Read content from " := ⟨[' '], by decide⟩
    exact List.IsPrefix.trans (List.IsPrefix.trans (List.IsPrefix.trans
      (List.IsPrefix.trans h0 (List.prefix_append _ _)) (List.prefix_append _ _))
      (List.prefix_append _ _)) (List.prefix_append _ _)
  have hsnipEq : joinSep '\n' ((splitOnCharL '\n'
      (lit "Read content from " ++ wkUrl ++ lit ":\n" ++
        (doc.drop start).take 2000 ++
        (if decide (start + 2000 < doc.length) then lit "..." else []))).drop 1) =
      deepSnip doc start := by
    rw [hturn, snippet_recovery _ _ hnlHeader hnlBody]
    rfl
  have hsliceLen : ((doc.drop start).take 2000).length = min 2000 (10000 - start) := by
    simp [List.length_take, List.length_drop, hlen]
  have hsnipNe : deepSnip doc start ≠ [] := by
    intro hh
    rw [deepSnip] at hh
    have h1 := (List.append_eq_nil.mp hh).1
    have h2 := congrArg List.length h1
    rw [hsliceLen] at h2
    simp only [List.length_nil, Nat.min_eq_zero_iff] at h2
    omega
  have hyes : ((lit "yes").isPrefixOf (toLowerStr (trimL (lit "YES")))) = true := by
    decide
  simp only [deepReadLoop]
  rw [if_pos hguard, hcache]
  rw [processToolCall_deepRead doc st start hsig]
  dsimp only
  rw [List.getLast?_concat]
  dsimp only
  rw [if_pos hpref, hsnipEq]
  rw [if_neg hsnipNe]
  simp only [oracleEnv]
  dsimp only
  simp only [if_true]
  by_cases hcont : tot + (deepSnip doc start).length < 10000
  · rw [if_pos (show ((lit "yes").isPrefixOf (toLowerStr (trimL (lit "YES"))) &&
        decide (tot + (deepSnip doc start).length < 10000)) = true by
        simp [hyes, hcont]),
      if_pos hcont]
    rfl
  · rw [if_neg (show ¬ ((lit "yes").isPrefixOf (toLowerStr (trimL (lit "YES"))) &&
        decide (tot + (deepSnip doc start).length < 10000)) = true by
        simp [hcont]),
      if_neg hcont]
    rfl

/-- The loop returns at once when `shouldContinue` is false. -/
theorem deepReadLoop_false (env : Env) (url : Str) (mc cs mtl fuel : Nat)
    (st : AgentState) (start cnt tot : Nat) (acc : List Str) :
    deepReadLoop env url mc cs mtl fuel st start cnt tot false acc =
      ⟨acc, cnt, tot, false, st⟩ := by
  cases fuel <;> simp [deepReadLoop]

/-- The length of a deep-read snippet over a 10000-character page. -/
theorem deepSnip_length (doc : Str) (hlen : doc.length = 10000) (start : Nat) :
    (deepSnip doc start).length =
      min 2000 (10000 - start) + (if start + 2000 < 10000 then 3 else 0) := by
  have h3 : (lit "...").length = 3 := by decide
  simp only [deepSnip, List.length_append, List.length_take, List.length_drop, hlen]
  by_cases h : start + 2000 < 10000 <;> simp [h, h3]

/-- The full deep-read run of the claim: a newline-free
10000-character page, `maxChunks = 5`, `chunkSize = 2000`,
`maxTotalLength = 10000`, the model replying yes after every chunk. -/
theorem deepRead_run (doc : Str) (hlen : doc.length = 10000) (hnl : '\n' ∉ doc) :
    deepReadUrl (oracleEnv doc) initialModuleState wkUrl 5 2000 10000 =
      ⟨[deepSnip doc 0, deepSnip doc 2000, deepSnip doc 4000, deepSnip doc 6000,
        deepSnip doc 8000], 4, 10012, false,
       deepStepState doc (deepStepState doc (deepStepState doc (deepStepState doc
         (deepStepState doc initialModuleState 0) 2000) 4000) 6000) 8000⟩ := by
  have l0 : (deepSnip doc 0).length = 2003 := by rw [deepSnip_length doc hlen]; norm_num
  have l2 : (deepSnip doc 2000).length = 2003 := by rw [deepSnip_length doc hlen]; norm_num
  have l4 : (deepSnip doc 4000).length = 2003 := by rw [deepSnip_length doc hlen]; norm_num
  have l6 : (deepSnip doc 6000).length = 2003 := by rw [deepSnip_length doc hlen]; norm_num
  have l8 : (deepSnip doc 8000).length = 2000 := by rw [deepSnip_length doc hlen]; norm_num
  have step1 := deepReadLoop_step doc hlen hnl (5 + 2) 6 0 0 0 initialModuleState []
    (by norm_num) (by norm_num) (by norm_num) (by norm_num)
    (by rfl) (by simp [initialModuleState])
  rw [deepReadUrl, step1, l0]
  norm_num
  have step2 := deepReadLoop_step doc hlen hnl 6 5 2000 1 2003
    (deepStepState doc initialModuleState 0) [deepSnip doc 0]
    (by norm_num) (by norm_num) (by norm_num) (by norm_num)
    (by simp only [deepStepState, initialModuleState, cacheGet_cacheSet]
        rw [if_neg (by decide)]
        rfl)
    (by simp [deepStepState, readArgsJson])
  rw [step2, l2]
  norm_num
  have step3 := deepReadLoop_step doc hlen hnl 5 4 4000 2 4006
    (deepStepState doc (deepStepState doc initialModuleState 0) 2000)
    [deepSnip doc 0, deepSnip doc 2000]
    (by norm_num) (by norm_num) (by norm_num) (by norm_num)
    (by simp only [deepStepState, initialModuleState, cacheGet_cacheSet]
        rw [if_neg (by decide), if_neg (by decide)]
        rfl)
    (by simp [deepStepState, readArgsJson])
  rw [step3, l4]
  norm_num
  have step4 := deepReadLoop_step doc hlen hnl 4 3 6000 3 6009
    (deepStepState doc (deepStepState doc (deepStepState doc initialModuleState 0)
      2000) 4000)
    [deepSnip doc 0, deepSnip doc 2000, deepSnip doc 4000]
    (by norm_num) (by norm_num) (by norm_num) (by norm_num)
    (by simp only [deepStepState, initialModuleState, cacheGet_cacheSet]
        rw [if_neg (by decide), if_neg (by decide), if_neg (by decide)]
        rfl)
    (by simp [deepStepState, readArgsJson])
  rw [step4, l6]
  norm_num
  have step5 := deepReadLoop_step doc hlen hnl 3 2 8000 4 8012
    (deepStepState doc (deepStepState doc (deepStepState doc (deepStepState doc
      initialModuleState 0) 2000) 4000) 6000)
    [deepSnip doc 0, deepSnip doc 2000, deepSnip doc 4000, deepSnip doc 6000]
    (by norm_num) (by norm_num) (by norm_num) (by norm_num)
    (by simp only [deepStepState, initialModuleState, cacheGet_cacheSet]
        rw [if_neg (by decide), if_neg (by decide), if_neg (by decide),
          if_neg (by decide)]
        rfl)
    (by simp [deepStepState, readArgsJson])
  rw [step5, l8]
  norm_num
  rw [deepReadLoop_false]

/-- **C5** (amended).  Against a newline-free 10000-character document
with `chunkSize = 2000`, `maxChunks = 5`, `maxTotalLength = 10000` and
a model replying yes after every chunk, exactly 5 chunks are fetched
and returned; but the loop stops because the cumulative-length check
fails — the snippets carry the appended `"..."` markers, so the total
reaches 10012 ≥ 10000 — while the chunk counter ends at 4 < 5, so the
chunk-count cap is *not* the terminating condition. -/
theorem deep_read_five_chunks (doc : Str) (hlen : doc.length = 10000)
    (hnl : '\n' ∉ doc) :
    (deepReadUrl (oracleEnv doc) initialModuleState wkUrl 5 2000 10000).chunks.length
      = 5 ∧
    (deepReadUrl (oracleEnv doc) initialModuleState wkUrl 5 2000 10000).chunkCount = 4 ∧
    (deepReadUrl (oracleEnv doc) initialModuleState wkUrl 5 2000 10000).chunkCount ≠ 5 ∧
    (deepReadUrl (oracleEnv doc) initialModuleState wkUrl 5 2000 10000).totalLength
      = 10012 ∧
    ¬ ((deepReadUrl (oracleEnv doc) initialModuleState wkUrl 5 2000
      10000).totalLength < 10000) ∧
    (deepReadUrl (oracleEnv doc) initialModuleState wkUrl 5 2000
      10000).shouldContinue = false := by
  rw [deepRead_run doc hlen hnl]
  exact ⟨rfl, rfl, by norm_num, rfl, by norm_num, rfl⟩

/-- **C5** counterexample: the claim's concrete scenario (a
10000-character page of `'a'`s).  Five chunks are indeed fetched, but
the loop's terminating condition is the cumulative-length cap
(`totalLength = 10012`, not `< 10000`), and the chunk-count cap is not
reached (`chunkCount = 4 ≠ 5`) — contradicting the claim that the loop
stops because of the chunk cap and not the length cap. -/
theorem deep_read_counterexample :
    (deepReadUrl (oracleEnv (List.replicate 10000 'a')) initialModuleState wkUrl
      5 2000 10000).chunks.length = 5 ∧
    (deepReadUrl (oracleEnv (List.replicate 10000 'a')) initialModuleState wkUrl
      5 2000 10000).chunkCount = 4 ∧
    (deepReadUrl (oracleEnv (List.replicate 10000 'a')) initialModuleState wkUrl
      5 2000 10000).chunkCount ≠ 5 ∧
    (deepReadUrl (oracleEnv (List.replicate 10000 'a')) initialModuleState wkUrl
      5 2000 10000).totalLength = 10012 ∧
    ¬ ((deepReadUrl (oracleEnv (List.replicate 10000 'a')) initialModuleState wkUrl
      5 2000 10000).totalLength < 10000) ∧
    (deepReadUrl (oracleEnv (List.replicate 10000 'a')) initialModuleState wkUrl
      5 2000 10000).shouldContinue = false := by
  have h := deepRead_run (List.replicate 10000 'a') (List.length_replicate _ _)
    (fun hmem => absurd ((List.mem_replicate.mp hmem).2) (by decide))
  rw [h]
  exact ⟨rfl, rfl, by norm_num, rfl, by norm_num, rfl⟩

/-- **C5** witness for the amended theorem: the 10000-character page
of `'a'`s. -/
theorem deep_read_five_chunks_witness :
    (deepReadUrl (oracleEnv (List.replicate 10000 'a')) initialModuleState wkUrl
      5 2000 10000).chunks.length = 5 ∧
    (deepReadUrl (oracleEnv (List.replicate 10000 'a')) initialModuleState wkUrl
      5 2000 10000).chunkCount = 4 ∧
    (deepReadUrl (oracleEnv (List.replicate 10000 'a')) initialModuleState wkUrl
      5 2000 10000).chunkCount ≠ 5 ∧
    (deepReadUrl (oracleEnv (List.replicate 10000 'a')) initialModuleState wkUrl
      5 2000 10000).totalLength = 10012 ∧
    ¬ ((deepReadUrl (oracleEnv (List.replicate 10000 'a')) initialModuleState wkUrl
      5 2000 10000).totalLength < 10000) ∧
    (deepReadUrl (oracleEnv (List.replicate 10000 'a')) initialModuleState wkUrl
      5 2000 10000).shouldContinue = false :=
  deep_read_five_chunks (List.replicate 10000 'a') (List.length_replicate _ _)
    (fun hmem => absurd ((List.mem_replicate.mp hmem).2) (by decide))

end ChatController
